import Mathlib

/-!
# Verification of the spark-expectations rule-orchestration core

This file gives a shallow embedding of `spark_expectations/core/expectations.py`
(the `with_expectations` decorator: the `_except` configuration layer and the
`wrapper` run orchestrator) together with the writer-side threshold computation,
and proves the specified properties about them.

Modelling conventions:
* A dataframe is abstracted to its observable use in `wrapper`: a handle with a
  row count (`DF`).  The wrapped user function may also return a non-dataframe
  value (`FuncResult.notDataFrame`); for such a value `countsAs = some n` models
  a Python object whose `.count()` call succeeds and returns `n`, while `none`
  models an object on which `.count()` raises (the common case for `None`,
  numbers, strings and lists).
* The collaborator `SparkExpectationsRegulateFlow.execute_dq_process` (the
  stage evaluator `func_process`) is an environment parameter
  `Env.evalProcess : Stage → Option DF → Except String (Option DF × Nat × Status)`;
  `.error msg` models the call raising an exception with message `msg` and
  `.ok (df?, errorCount, status)` models its four-tuple result (the aggregate
  results dictionary is captured and stored by the Python code but never read
  by the orchestrator, so it is not modelled).
* Mutations of `SparkExpectationsContext` become updates of a `Ctx` record;
  timestamps are modelled by a logical clock that advances at every
  `set_*_time` call.  Side effects that the claims observe (evaluator
  invocations, temp-view creation, notifications, table writes) are recorded
  in an event trace.
* Exceptions: every exception escaping the `try` body is re-raised by the
  `except` clause as `SparkExpectationsMiscException(f"... {e}")`; this is the
  single constructor `RunError.miscException` wrapping the underlying `Cause`.
-/

/-- Stage status strings used by the orchestrator ("Passed" / "Failed" /
"Skipped").  `set_*_dq_status()` called with no argument resets to the default. -/
inductive Status
  | passed
  | failed
  | skipped
deriving DecidableEq

/-- The five DQ execution stages of the orchestrator. -/
inductive Stage
  | sourceAgg
  | sourceQuery
  | row
  | finalAgg
  | finalQuery
deriving DecidableEq

/-- A dataframe handle, abstracted to its row count (`df.count()`). -/
structure DF where
  cnt : Nat
deriving DecidableEq

/-- The value returned by the wrapped user function `func(*args, **kwargs)`. -/
inductive FuncResult
  | dataFrame (d : DF)
  | notDataFrame (countsAs : Option Nat)
deriving DecidableEq

/-- Python `v.count()`: succeeds on a dataframe; on a non-dataframe it
succeeds only when the object happens to expose a working `count()`. -/
def pyCount : FuncResult → Option Nat
  | .dataFrame d => some d.cnt
  | .notDataFrame c => c

/-- The underlying cause of an exception raised inside the `try` body of
`wrapper`. -/
inductive Cause
  | countCallFailed
  | evalError (s : Stage) (msg : String)
  | viewNameMissing
  | dataframeNotReturned
  | divisionByZero
deriving DecidableEq

/-- The exception type seen by the caller of `wrapper`: the `except Exception`
clause always re-raises `SparkExpectationsMiscException(f"error occurred while
processing spark expectations {e}")`, wrapping the cause `e`. -/
inductive RunError
  | miscException (cause : Cause)
deriving DecidableEq

/-- Observable side effects of one run, in order of occurrence. -/
inductive Event
  | setStatus (s : Stage) (st : Status)
  | setStartTime (s : Stage)
  | setEndTime (s : Stage)
  | invoke (s : Stage) (input : Option DF)
  | createView (name : String) (d : DF)
  | notifyErrorDropBreach
  | writeFinal (d : Option DF)
  | writeTemp (d : DF)
deriving DecidableEq

/-- The run-scoped mutable context (`SparkExpectationsContext`), restricted to
the fields the orchestrator writes and the claims read.  The per-stage result
collections are reset by `wrapper` and filled by the evaluator collaborator,
never read by the orchestrator, so they are not modelled. -/
structure Ctx where
  runStatus : Status
  sourceAggDqStatus : Status
  sourceQueryDqStatus : Status
  rowDqStatus : Status
  finalAggDqStatus : Status
  finalQueryDqStatus : Status
  inputCount : Nat
  errorCount : Nat
  outputCount : Nat
  errorDropThreshold : Int
  sourceAggDqStartTime : Option Nat
  sourceQueryDqStartTime : Option Nat
  rowDqStartTime : Option Nat
  finalAggDqStartTime : Option Nat
  finalQueryDqStartTime : Option Nat
  sourceAggDqEndTime : Option Nat
  sourceQueryDqEndTime : Option Nat
  rowDqEndTime : Option Nat
  finalAggDqEndTime : Option Nat
  finalQueryDqEndTime : Option Nat
  clock : Nat
deriving DecidableEq

/-- The local state of one `wrapper` execution: the context plus the local
variables that are read later in the body (`_row_dq_df`, `_error_count`,
`_output_count`) and the event trace. -/
structure St where
  ctx : Ctx
  rowDqDf : Option DF
  errCnt : Nat
  outCnt : Nat
  trace : List Event
deriving DecidableEq

/-- The environment of one run: the wrapped function's return value, the stage
evaluator collaborator, and the dataframe produced by re-reading the temp
table (`spark.sql(f"select * from {table_name}_temp")`). -/
structure Env where
  funcResult : FuncResult
  evalProcess : Stage → Option DF → Except String (Option DF × Nat × Status)
  tempTableDF : DF

/-- The `wrapper`-level parameters: stage-enablement flags from
`rules_execution_settings`, the decorator arguments, and the effective
notification settings computed by `_except`. -/
structure Params where
  rowDq : Bool
  aggDq : Bool
  sourceAggDq : Bool
  targetAggDq : Bool
  queryDq : Bool
  sourceQueryDq : Bool
  targetQueryDq : Bool
  writeToTable : Bool
  writeToTempTable : Bool
  targetTableView : String
  notifyOnErrorDropBreach : Bool
  errorDropThreshold : Int

def emit (e : Event) (s : St) : St :=
  { s with trace := s.trace ++ [e] }

/-- Per-stage status accessor on the context. -/
def statusOf : Stage → Ctx → Status
  | .sourceAgg => Ctx.sourceAggDqStatus
  | .sourceQuery => Ctx.sourceQueryDqStatus
  | .row => Ctx.rowDqStatus
  | .finalAgg => Ctx.finalAggDqStatus
  | .finalQuery => Ctx.finalQueryDqStatus

def startTimeOf : Stage → Ctx → Option Nat
  | .sourceAgg => Ctx.sourceAggDqStartTime
  | .sourceQuery => Ctx.sourceQueryDqStartTime
  | .row => Ctx.rowDqStartTime
  | .finalAgg => Ctx.finalAggDqStartTime
  | .finalQuery => Ctx.finalQueryDqStartTime

def endTimeOf : Stage → Ctx → Option Nat
  | .sourceAgg => Ctx.sourceAggDqEndTime
  | .sourceQuery => Ctx.sourceQueryDqEndTime
  | .row => Ctx.rowDqEndTime
  | .finalAgg => Ctx.finalAggDqEndTime
  | .finalQuery => Ctx.finalQueryDqEndTime

/-- Models `self._context.set_<stage>_dq_status(st)` plus its trace record. -/
def setStageStatus (stg : Stage) (st : Status) (s : St) : St :=
  let c := s.ctx
  let c :=
    match stg with
    | .sourceAgg => { c with sourceAggDqStatus := st }
    | .sourceQuery => { c with sourceQueryDqStatus := st }
    | .row => { c with rowDqStatus := st }
    | .finalAgg => { c with finalAggDqStatus := st }
    | .finalQuery => { c with finalQueryDqStatus := st }
  emit (.setStatus stg st) { s with ctx := c }

/-- Models `self._context.set_<stage>_dq_start_time()`: records the current logical
time and advances the clock. -/
def setStageStartTime (stg : Stage) (s : St) : St :=
  let c := s.ctx
  let t := c.clock
  let c :=
    match stg with
    | .sourceAgg => { c with sourceAggDqStartTime := some t }
    | .sourceQuery => { c with sourceQueryDqStartTime := some t }
    | .row => { c with rowDqStartTime := some t }
    | .finalAgg => { c with finalAggDqStartTime := some t }
    | .finalQuery => { c with finalQueryDqStartTime := some t }
  emit (.setStartTime stg) { s with ctx := { c with clock := t + 1 } }

/-- Models `self._context.set_<stage>_dq_end_time()`. -/
def setStageEndTime (stg : Stage) (s : St) : St :=
  let c := s.ctx
  let t := c.clock
  let c :=
    match stg with
    | .sourceAgg => { c with sourceAggDqEndTime := some t }
    | .sourceQuery => { c with sourceQueryDqEndTime := some t }
    | .row => { c with rowDqEndTime := some t }
    | .finalAgg => { c with finalAggDqEndTime := some t }
    | .finalQuery => { c with finalQueryDqEndTime := some t }
  emit (.setEndTime stg) { s with ctx := { c with clock := t + 1 } }

/-- Rounding to two decimal places, `round(x, 2)`. -/
def round2 (q : ℚ) : ℚ := (round (q * 100) : ℤ) / 100

/-- Rounding to one decimal place, `round(x, 1)`. -/
def round1 (q : ℚ) : ℚ := (round (q * 10) : ℤ) / 10

/-- Modelled from the spec: the context property `get_output_percentage`
(`spark_expectations/core/context.py` is not among the sources).  Per §3 of the
spec: `output_percentage = output_count/input_count*100`, rounded to 2 decimal
places, a defined division-by-zero error when `input_count == 0`. -/
def getOutputPercentage (c : Ctx) : Except Cause ℚ :=
  if c.inputCount = 0 then .error .divisionByZero
  else .ok (round2 ((c.outputCount : ℚ) / (c.inputCount : ℚ) * 100))

/-- The context before the run; `wrapper` resets every modelled field before
use, so these initial values are only visible when `_df.count()` raises. -/
def initCtx : Ctx :=
  { runStatus := .skipped
    sourceAggDqStatus := .skipped
    sourceQueryDqStatus := .skipped
    rowDqStatus := .skipped
    finalAggDqStatus := .skipped
    finalQueryDqStatus := .skipped
    inputCount := 0
    errorCount := 0
    outputCount := 0
    errorDropThreshold := 0
    sourceAggDqStartTime := none
    sourceQueryDqStartTime := none
    rowDqStartTime := none
    finalAggDqStartTime := none
    finalQueryDqStartTime := none
    sourceAggDqEndTime := none
    sourceQueryDqEndTime := none
    rowDqEndTime := none
    finalAggDqEndTime := none
    finalQueryDqEndTime := none
    clock := 0 }

def initSt : St :=
  { ctx := initCtx, rowDqDf := none, errCnt := 0, outCnt := 0, trace := [] }

/-- Lines 243–273 of `expectations.py`: reset statuses, counts and timestamps
to defaults, then `set_input_count(_input_count)` and
`set_error_drop_threshold(_error_drop_threshold)`.  Modelled from the spec for
the context defaults (`context.py` is not among the sources): `set_dq_run_status`
defaults to `Failed`, each per-stage `set_*_dq_status()` defaults to `Skipped`,
the counters default to 0, the timestamps are cleared to `None`. -/
def initContext (p : Params) (inputCount : Nat) (s : St) : St :=
  { s with ctx :=
    { s.ctx with
      runStatus := .failed
      sourceAggDqStatus := .skipped
      sourceQueryDqStatus := .skipped
      rowDqStatus := .skipped
      finalAggDqStatus := .skipped
      finalQueryDqStatus := .skipped
      errorCount := 0
      outputCount := 0
      sourceAggDqStartTime := none
      sourceQueryDqStartTime := none
      rowDqStartTime := none
      finalAggDqStartTime := none
      finalQueryDqStartTime := none
      sourceAggDqEndTime := none
      sourceQueryDqEndTime := none
      rowDqEndTime := none
      finalAggDqEndTime := none
      finalQueryDqEndTime := none
      inputCount := inputCount
      errorDropThreshold := p.errorDropThreshold } }

/-- Sequencing of fallible pipeline steps: once a step has raised, later steps
are not executed (the exception propagates to the `except` clause). -/
def stepSeq (r : St × Option Cause) (f : St → St × Option Cause) : St × Option Cause :=
  match r with
  | (s, none) => f s
  | (s, some c) => (s, some c)

/-- Lines 305–333: the `source_agg` stage block. -/
def runSourceAggStage (p : Params) (env : Env) (df : DF) (s : St) : St × Option Cause :=
  if p.aggDq && p.sourceAggDq then
    let s := setStageStatus .sourceAgg .failed s
    let s := setStageStartTime .sourceAgg s
    let s := emit (.invoke .sourceAgg (some df)) s
    match env.evalProcess .sourceAgg (some df) with
    | .error msg => (s, some (.evalError .sourceAgg msg))
    | .ok (_d, _n, st) =>
      let s := setStageStatus .sourceAgg st s
      let s := setStageEndTime .sourceAgg s
      (s, none)
  else (s, none)

/-- Lines 335–362: the `source_query` stage block. -/
def runSourceQueryStage (p : Params) (env : Env) (df : DF) (s : St) : St × Option Cause :=
  if p.queryDq && p.sourceQueryDq then
    let s := setStageStatus .sourceQuery .failed s
    let s := setStageStartTime .sourceQuery s
    let s := emit (.invoke .sourceQuery (some df)) s
    match env.evalProcess .sourceQuery (some df) with
    | .error msg => (s, some (.evalError .sourceQuery msg))
    | .ok (_d, _n, st) =>
      let s := setStageStatus .sourceQuery st s
      let s := setStageEndTime .sourceQuery s
      (s, none)
  else (s, none)

/-- Lines 395–407: the error-drop threshold breach check at the end of the row
block.  The Python `and` short-circuits, so `get_output_percentage` is only
evaluated when the breach-notification flag is set; the exception raise on
breach is commented out in the source, the breach only notifies. -/
def errorThresholdBreachCheck (p : Params) (s : St) : St × Option Cause :=
  if p.notifyOnErrorDropBreach then
    match getOutputPercentage s.ctx with
    | .error c => (s, some c)
    | .ok pct =>
      if (100 : ℚ) - pct ≥ (p.errorDropThreshold : ℚ) then
        (emit .notifyErrorDropBreach s, none)
      else (s, none)
  else (s, none)

/-- Lines 364–410: the `row` stage block: evaluate, record the error count,
publish the row output as the target view when present, record the output
count, record status and end time, then run the breach check. -/
def runRowStage (p : Params) (env : Env) (df : DF) (s : St) : St × Option Cause :=
  if p.rowDq then
    let s := setStageStatus .row .failed s
    let s := setStageStartTime .row s
    let s := emit (.invoke .row (some df)) s
    match env.evalProcess .row (some df) with
    | .error msg => (s, some (.evalError .row msg))
    | .ok (d, ec, st) =>
      let s := { s with errCnt := ec, ctx := { s.ctx with errorCount := ec } }
      let s := { s with rowDqDf := d }
      let s :=
        if p.targetTableView ≠ "" then
          match d with
          | some rd => emit (.createView p.targetTableView rd) s
          | none => s
        else s
      let oc := match d with | some rd => rd.cnt | none => 0
      let s := { s with outCnt := oc, ctx := { s.ctx with outputCount := oc } }
      let s := setStageStatus .row st s
      let s := setStageEndTime .row s
      errorThresholdBreachCheck p s
  else (s, none)

/-- Lines 412–444: the `final_agg` stage block; its input is the local
`_row_dq_df` (which may be `None`). -/
def runFinalAggStage (p : Params) (env : Env) (s : St) : St × Option Cause :=
  if p.rowDq && p.aggDq && p.targetAggDq then
    let input := s.rowDqDf
    let s := setStageStatus .finalAgg .failed s
    let s := setStageStartTime .finalAgg s
    let s := emit (.invoke .finalAgg input) s
    match env.evalProcess .finalAgg input with
    | .error msg => (s, some (.evalError .finalAgg msg))
    | .ok (_d, _n, st) =>
      let s := setStageStatus .finalAgg st s
      let s := setStageEndTime .finalAgg s
      (s, none)
  else (s, none)

/-- Lines 446–487: the `final_query` stage block: after setting the pessimistic
status and the start time, `if _target_table_view and _row_dq_df:` republishes
the row output as the view, otherwise raises
`SparkExpectationsMiscException("final table view name is not supplied to run
query dq")` before the evaluator is invoked. -/
def runFinalQueryStage (p : Params) (env : Env) (s : St) : St × Option Cause :=
  if p.rowDq && p.queryDq && p.targetQueryDq then
    let s := setStageStatus .finalQuery .failed s
    let s := setStageStartTime .finalQuery s
    match s.rowDqDf with
    | some rd =>
      if p.targetTableView = "" then (s, some .viewNameMissing)
      else
        let s := emit (.createView p.targetTableView rd) s
        let s := emit (.invoke .finalQuery (some rd)) s
        match env.evalProcess .finalQuery (some rd) with
        | .error msg => (s, some (.evalError .finalQuery msg))
        | .ok (_d, _n, st) =>
          let s := setStageStatus .finalQuery st s
          let s := setStageEndTime .finalQuery s
          (s, none)
    | none => (s, some .viewNameMissing)
  else (s, none)

/-- Lines 489–497: `if _row_dq and write_to_table:` write `_row_dq_df` to the
final table. -/
def runWriteStage (p : Params) (s : St) : St × Option Cause :=
  if p.rowDq && p.writeToTable then
    (emit (.writeFinal s.rowDqDf) s, none)
  else (s, none)

/-- The five stage blocks of lines 305–497 in their fixed order, followed by
the final-table write; an exception raised in one block skips the rest. -/
def runStages (p : Params) (env : Env) (df : DF) (s : St) : St × Option Cause :=
  let r := runSourceAggStage p env df s
  let r := stepSeq r (runSourceQueryStage p env df)
  let r := stepSeq r (runRowStage p env df)
  let r := stepSeq r (runFinalAggStage p env)
  let r := stepSeq r (runFinalQueryStage p env)
  stepSeq r (runWriteStage p)

/-- The body of the `try` block of `wrapper` (lines 228–506): obtain the
function result, count it, reset the context, and when the result is a
dataframe run the five stage blocks in order followed by the final-table
write; a non-dataframe result raises
`SparkExpectationsDataframeNotReturnedException`. -/
def wrapperBody (p : Params) (env : Env) (s0 : St) : St × Except Cause (Option DF) :=
  match pyCount env.funcResult with
  | none => (s0, .error .countCallFailed)
  | some n =>
    let s := initContext p n s0
    match env.funcResult with
    | .dataFrame d =>
      let s := if p.writeToTempTable then emit (.writeTemp d) s else s
      let df := if p.writeToTempTable then env.tempTableDF else d
      match runStages p env df s with
      | (s, none) => (s, .ok s.rowDqDf)
      | (s, some c) => (s, .error c)
    | .notDataFrame _ => (s, .error .dataframeNotReturned)

/-- The result of one run: the final state (the Python context is mutated in
place, so it survives an exception) and the outcome seen by the caller. -/
structure RunResult where
  state : St
  outcome : Except RunError (Option DF)

/-- The full `wrapper` function: the `try` body with the `except Exception`
clause wrapping any escaping exception into `SparkExpectationsMiscException`. -/
def wrapper (p : Params) (env : Env) : RunResult :=
  match wrapperBody p env initSt with
  | (s, .ok v) => ⟨s, .ok v⟩
  | (s, .error c) => ⟨s, .error (.miscException c)⟩

/-- The evaluator invocations recorded in a trace, in order, with their
inputs. -/
def allInvokes (tr : List Event) : List (Stage × Option DF) :=
  tr.filterMap fun e =>
    match e with
    | .invoke s i => some (s, i)
    | _ => none

/-- The invocations of one particular stage recorded in a trace. -/
def invokesOf (stg : Stage) (tr : List Event) : List (Option DF) :=
  tr.filterMap fun e =>
    match e with
    | .invoke s i => if s = stg then some i else none
    | _ => none

/-- Whether an event is a status/timing/invocation record of the given
stage. -/
def isStageEvent (stg : Stage) : Event → Bool
  | .setStatus s _ => s = stg
  | .setStartTime s => s = stg
  | .setEndTime s => s = stg
  | .invoke s _ => s = stg
  | _ => false

/-- The status/timing/invocation records of one stage, in trace order. -/
def stageEvents (stg : Stage) (tr : List Event) : List Event :=
  tr.filter (isStageEvent stg)

/-!
## Notification configuration (`_except`, lines 108–215)

The five notification-related entries of `spark_conf` are merged over fixed
defaults (`{**_default_notification_dict, **spark_conf}`: a user-supplied value
wins when the key is present), then each effective value goes through an
`isinstance` check.  Python's `isinstance(v, int)` is also true for `bool`
values (`bool` subclasses `int`), while `isinstance(v, bool)` is true only for
`bool` values.
-/

/-- A configuration value as supplied in `spark_conf` (the dict is typed
`Dict[str, Union[str, int, bool]]`). -/
inductive ConfValue
  | boolV (b : Bool)
  | intV (n : Int)
  | strV (s : String)
deriving DecidableEq

/-- Python `isinstance(v, bool)`. -/
def isInstanceBool : ConfValue → Bool
  | .boolV _ => true
  | _ => false

/-- Python `isinstance(v, int)`: true for `int` and for `bool` (a subclass of
`int`). -/
def isInstanceInt : ConfValue → Bool
  | .boolV _ => true
  | .intV _ => true
  | .strV _ => false

/-- Python `bool(v)` (only reached behind an `isinstance(v, bool)` guard). -/
def confBool : ConfValue → Bool
  | .boolV b => b
  | .intV n => n ≠ 0
  | .strV s => s ≠ ""

/-- Python `int(v)` (only reached behind an `isinstance(v, int)` guard, so the
string branch is never taken by the callers below). -/
def confInt : ConfValue → Int
  | .boolV b => if b then 1 else 0
  | .intV n => n
  | .strV _ => 0

/-- The user-supplied `spark_conf`, restricted to the five notification keys;
`none` means the key is absent from the dict. -/
structure SparkConf where
  onStart : Option ConfValue
  onCompletion : Option ConfValue
  onFail : Option ConfValue
  onErrorDropBreach : Option ConfValue
  errorDropThresholdValue : Option ConfValue
deriving DecidableEq

/-- Computes `\x7b**_default_notification_dict, **spark_conf\x7d` for a single key. -/
def mergedValue (userVal : Option ConfValue) (dflt : ConfValue) : ConfValue :=
  userVal.getD dflt

/-- Computes `_notification_on_start` (default `False`). -/
def notificationOnStart (conf : SparkConf) : Bool :=
  let v := mergedValue conf.onStart (.boolV false)
  if isInstanceBool v then confBool v else false

/-- Computes `_notification_on_completion` (default `False`). -/
def notificationOnCompletion (conf : SparkConf) : Bool :=
  let v := mergedValue conf.onCompletion (.boolV false)
  if isInstanceBool v then confBool v else false

/-- Computes `_notification_on_fail` (default `True`). -/
def notificationOnFail (conf : SparkConf) : Bool :=
  let v := mergedValue conf.onFail (.boolV true)
  if isInstanceBool v then confBool v else false

/-- Computes `_notification_on_error_drop_exceeds_threshold_breach` (default `False`). -/
def notificationOnErrorDropBreach (conf : SparkConf) : Bool :=
  let v := mergedValue conf.onErrorDropBreach (.boolV false)
  if isInstanceBool v then confBool v else false

/-- Computes `_error_drop_threshold` (default `100`). -/
def errorDropThresholdOf (conf : SparkConf) : Int :=
  let v := mergedValue conf.errorDropThresholdValue (.intV 100)
  if isInstanceInt v then confInt v else 100

/-- Computes `target_table_view if target_table_view else f"\x7btarget_table\x7d_view"`:
the effective view name, defaulting to `{target_table}_view` when the argument
is `None` or empty (Python string truthiness). -/
def mkTargetTableView (targetTableViewArg : Option String) (targetTable : String) : String :=
  match targetTableViewArg with
  | some s => if s = "" then targetTable ++ "_view" else s
  | none => targetTable ++ "_view"

/-!
## Writer-side threshold enrichment

`SparkExpectationsWriter.generate_rules_exceeds_threshold` lives in
`spark_expectations/sinks/utils/writer.py`, which is not among the sources
(only its tests in `src/tests/sinks/utils/test_writer.py` are).  The functions
below are modelled from the spec (§4.2 per-rule threshold enrichment) and are
exercised against the behaviours the tests pin down.
-/

/-- One entry of `summarised_row_dq_res`: a `{"rule": ..., "failed_row_count":
...}` map.  `none` fields model an entry missing the key (the exception test
feeds `[{}]`). -/
structure SummarisedEntry where
  ruleKey : Option String
  failedRowCountKey : Option Nat
deriving DecidableEq

/-- One row-dq rule as read from `dq_rules["row_dq_rules"]`. -/
structure RowDqRule where
  rule : String
  enableErrorDropAlert : Bool
  actionIfFailed : String
  description : String
  ruleType : String
  errorDropThresholdStr : String
deriving DecidableEq

/-- One entry of `rules_exceeds_threshold` (the percentage, rendered to one
decimal place, is modelled as the rounded rational). -/
structure ThresholdEntry where
  ruleName : String
  actionIfFailed : String
  description : String
  ruleType : String
  errorDropThresholdStr : String
  errorDropPercentage : ℚ
deriving DecidableEq

/-- Modelled from the spec: the rule-name → failed-row-count map built from
`summarised_row_dq_res`; an entry missing either key is a hard error (the
Python dict comprehension raises `KeyError`). -/
def buildFailedRowCountMap : List SummarisedEntry → Except String (List (String × Nat))
  | [] => .ok []
  | e :: rest =>
    match e.ruleKey, e.failedRowCountKey with
    | some r, some c =>
      match buildFailedRowCountMap rest with
      | .ok m => .ok ((r, c) :: m)
      | .error msg => .error msg
    | _, _ => .error ("missing key in summarised row dq result")

/-- First-match lookup in the failed-row-count map. -/
def lookupFailedCount (m : List (String × Nat)) (r : String) : Option Nat :=
  match m.find? (fun e => e.1 = r) with
  | some e => some e.2
  | none => none

/-- Modelled from the spec: the `rules_exceeds_threshold` entry for one rule:
`error_drop_percentage = failed_count / input_count * 100`, one decimal
place. -/
def mkThresholdEntry (r : RowDqRule) (failed inputCount : Nat) : ThresholdEntry :=
  { ruleName := r.rule
    actionIfFailed := r.actionIfFailed
    description := r.description
    ruleType := r.ruleType
    errorDropThresholdStr := r.errorDropThresholdStr
    errorDropPercentage := round1 ((failed : ℚ) / (inputCount : ℚ) * 100) }

/-- Modelled from the spec: for each row rule with `enable_error_drop_alert =
true` whose observed failure percentage is present (the rule has a failed-row
count in the summary), compute the percentage and include the rule regardless
of its own `error_drop_threshold`; `input_count = 0` is a hard error for the
computation. -/
def thresholdEntriesFor (inputCount : Nat) (m : List (String × Nat)) :
    List RowDqRule → Except String (List ThresholdEntry)
  | [] => .ok []
  | r :: rest =>
    if r.enableErrorDropAlert then
      match lookupFailedCount m r.rule with
      | some c =>
        if inputCount = 0 then .error ("division by zero")
        else
          match thresholdEntriesFor inputCount m rest with
          | .ok tl => .ok (mkThresholdEntry r c inputCount :: tl)
          | .error msg => .error msg
      | none => thresholdEntriesFor inputCount m rest
    else thresholdEntriesFor inputCount m rest

/-- Modelled from the spec: `generate_rules_exceeds_threshold(dq_rules)` of
`SparkExpectationsWriter` (`writer.py` is not among the sources).  A `None`
summary leaves `rules_exceeds_threshold` unset (`ok none`); otherwise the
failed-count map is built, `dq_rules["row_dq_rules"]` is traversed (a `None`
`dq_rules` is a hard error), and the collection is set when non-empty.  Any
internal error surfaces as `SparkExpectationsMiscException("An error occurred
while creating error threshold list : ...")`, modelled by the `.error`
result. -/
def generate_rules_exceeds_threshold (inputCount : Nat)
    (summarised : Option (List SummarisedEntry))
    (dqRules : Option (List RowDqRule)) :
    Except String (Option (List ThresholdEntry)) :=
  match summarised with
  | none => .ok none
  | some entries =>
    match buildFailedRowCountMap entries with
    | .error msg => .error msg
    | .ok m =>
      match dqRules with
      | none => .error ("row dq rules are not available")
      | some rules =>
        match thresholdEntriesFor inputCount m rules with
        | .error msg => .error msg
        | .ok tl => .ok (if tl.isEmpty then none else some tl)

/-!
## Stage run conditions and concrete fixtures
-/

/-- The flag conjunction guarding each stage block (the five `if` conditions of
`wrapper`, lines 305, 335, 364, 412 and 446). -/
def stageRunCond (p : Params) : Stage → Bool
  | .sourceAgg => p.aggDq && p.sourceAggDq
  | .sourceQuery => p.queryDq && p.sourceQueryDq
  | .row => p.rowDq
  | .finalAgg => p.rowDq && p.aggDq && p.targetAggDq
  | .finalQuery => p.rowDq && p.queryDq && p.targetQueryDq

/-- A concrete evaluator: the row stage keeps 8 of 10 records, every other
stage passes its input through. -/
def exEval : Stage → Option DF → Except String (Option DF × Nat × Status)
  | .row, _ => .ok (some ⟨8⟩, 2, .passed)
  | _, i => .ok (i, 0, .passed)

/-- A concrete evaluator whose row stage completes without producing an output
dataframe. -/
def exEvalRowNone : Stage → Option DF → Except String (Option DF × Nat × Status)
  | .row, _ => .ok (none, 2, .passed)
  | _, i => .ok (i, 0, .passed)

/-- A concrete evaluator whose row stage raises. -/
def exEvalRowErr : Stage → Option DF → Except String (Option DF × Nat × Status)
  | .row, _ => .error ("boom")
  | _, i => .ok (i, 0, .passed)

/-- A concrete environment: the wrapped function returns a 10-row dataframe. -/
def exEnv : Env := { funcResult := .dataFrame ⟨10⟩, evalProcess := exEval, tempTableDF := ⟨10⟩ }

def exEnvRowNone : Env := { exEnv with evalProcess := exEvalRowNone }

def exEnvRowErr : Env := { exEnv with evalProcess := exEvalRowErr }

/-- A concrete environment whose wrapped function returns a non-dataframe
object exposing a working `count()`. -/
def exEnvNotDFCount : Env := { exEnv with funcResult := .notDataFrame (some 7) }

/-- A concrete environment whose wrapped function returns a non-dataframe
object on which `.count()` raises (e.g. `None`). -/
def exEnvNotDFNoCount : Env := { exEnv with funcResult := .notDataFrame none }

/-- Concrete parameters with every stage flag enabled and breach notifications
disabled. -/
def exParams : Params :=
  { rowDq := true, aggDq := true, sourceAggDq := true, targetAggDq := true,
    queryDq := true, sourceQueryDq := true, targetQueryDq := true,
    writeToTable := false, writeToTempTable := false, targetTableView := "tv",
    notifyOnErrorDropBreach := false, errorDropThreshold := 100 }

def exParamsNoRow : Params := { exParams with rowDq := false, writeToTable := true }

def exParamsNotify : Params :=
  { exParams with notifyOnErrorDropBreach := true, errorDropThreshold := 10 }

/-- A concrete summarised row-dq result: rule1 failed on 10 records. -/
def exSummarised : List SummarisedEntry := [⟨some "rule1", some 10⟩]

/-- A concrete alert-enabled row rule. -/
def exRowRule : RowDqRule := ⟨"rule1", true, "drop", "description1", "row_dq", "10"⟩

/-!
## Step-level characterisation lemmas

Each stage block is characterised by three equations: skipped (flag conjunction
false), completed (evaluator returns), and aborted (evaluator raises).
-/

theorem stepSeq_none (s : St) (f : St → St × Option Cause) : stepSeq (s, none) f = f s := rfl

theorem stepSeq_some (s : St) (c : Cause) (f : St → St × Option Cause) :
    stepSeq (s, some c) f = (s, some c) := rfl

theorem runSourceAggStage_off (p : Params) (env : Env) (df : DF) (s : St)
    (h : (p.aggDq && p.sourceAggDq) = false) :
    runSourceAggStage p env df s = (s, none) := by
  simp [runSourceAggStage, h]

theorem runSourceAggStage_ok (p : Params) (env : Env) (df : DF) (s : St)
    (d : Option DF) (n : Nat) (st : Status)
    (h : (p.aggDq && p.sourceAggDq) = true)
    (he : env.evalProcess .sourceAgg (some df) = .ok (d, n, st)) :
    runSourceAggStage p env df s =
      ({ s with
          ctx := { s.ctx with
            sourceAggDqStatus := st
            sourceAggDqStartTime := some s.ctx.clock
            sourceAggDqEndTime := some (s.ctx.clock + 1)
            clock := s.ctx.clock + 2 }
          trace := s.trace ++
            [.setStatus .sourceAgg .failed, .setStartTime .sourceAgg,
             .invoke .sourceAgg (some df), .setStatus .sourceAgg st,
             .setEndTime .sourceAgg] }, none) := by
  simp [runSourceAggStage, h, he, setStageStatus, setStageStartTime, setStageEndTime, emit]

theorem runSourceAggStage_err (p : Params) (env : Env) (df : DF) (s : St) (msg : String)
    (h : (p.aggDq && p.sourceAggDq) = true)
    (he : env.evalProcess .sourceAgg (some df) = .error msg) :
    runSourceAggStage p env df s =
      ({ s with
          ctx := { s.ctx with
            sourceAggDqStatus := .failed
            sourceAggDqStartTime := some s.ctx.clock
            clock := s.ctx.clock + 1 }
          trace := s.trace ++
            [.setStatus .sourceAgg .failed, .setStartTime .sourceAgg,
             .invoke .sourceAgg (some df)] }, some (.evalError .sourceAgg msg)) := by
  simp [runSourceAggStage, h, he, setStageStatus, setStageStartTime, emit]

theorem runSourceQueryStage_off (p : Params) (env : Env) (df : DF) (s : St)
    (h : (p.queryDq && p.sourceQueryDq) = false) :
    runSourceQueryStage p env df s = (s, none) := by
  simp [runSourceQueryStage, h]

theorem runSourceQueryStage_ok (p : Params) (env : Env) (df : DF) (s : St)
    (d : Option DF) (n : Nat) (st : Status)
    (h : (p.queryDq && p.sourceQueryDq) = true)
    (he : env.evalProcess .sourceQuery (some df) = .ok (d, n, st)) :
    runSourceQueryStage p env df s =
      ({ s with
          ctx := { s.ctx with
            sourceQueryDqStatus := st
            sourceQueryDqStartTime := some s.ctx.clock
            sourceQueryDqEndTime := some (s.ctx.clock + 1)
            clock := s.ctx.clock + 2 }
          trace := s.trace ++
            [.setStatus .sourceQuery .failed, .setStartTime .sourceQuery,
             .invoke .sourceQuery (some df), .setStatus .sourceQuery st,
             .setEndTime .sourceQuery] }, none) := by
  simp [runSourceQueryStage, h, he, setStageStatus, setStageStartTime, setStageEndTime, emit]

theorem runSourceQueryStage_err (p : Params) (env : Env) (df : DF) (s : St) (msg : String)
    (h : (p.queryDq && p.sourceQueryDq) = true)
    (he : env.evalProcess .sourceQuery (some df) = .error msg) :
    runSourceQueryStage p env df s =
      ({ s with
          ctx := { s.ctx with
            sourceQueryDqStatus := .failed
            sourceQueryDqStartTime := some s.ctx.clock
            clock := s.ctx.clock + 1 }
          trace := s.trace ++
            [.setStatus .sourceQuery .failed, .setStartTime .sourceQuery,
             .invoke .sourceQuery (some df)] }, some (.evalError .sourceQuery msg)) := by
  simp [runSourceQueryStage, h, he, setStageStatus, setStageStartTime, emit]

theorem errorThresholdBreachCheck_off (p : Params) (s : St)
    (h : p.notifyOnErrorDropBreach = false) :
    errorThresholdBreachCheck p s = (s, none) := by
  simp [errorThresholdBreachCheck, h]

theorem errorThresholdBreachCheck_on (p : Params) (s : St)
    (h : p.notifyOnErrorDropBreach = true) (h0 : s.ctx.inputCount ≠ 0) :
    errorThresholdBreachCheck p s =
      (if (100 : ℚ) - round2 ((s.ctx.outputCount : ℚ) / (s.ctx.inputCount : ℚ) * 100) ≥
          (p.errorDropThreshold : ℚ) then
        (emit .notifyErrorDropBreach s, none)
      else (s, none)) := by
  simp [errorThresholdBreachCheck, h, getOutputPercentage, h0]

theorem errorThresholdBreachCheck_zero (p : Params) (s : St)
    (h : p.notifyOnErrorDropBreach = true) (h0 : s.ctx.inputCount = 0) :
    errorThresholdBreachCheck p s = (s, some .divisionByZero) := by
  simp [errorThresholdBreachCheck, h, getOutputPercentage, h0]

theorem runRowStage_off (p : Params) (env : Env) (df : DF) (s : St)
    (h : p.rowDq = false) :
    runRowStage p env df s = (s, none) := by
  simp [runRowStage, h]

theorem runRowStage_ok_some (p : Params) (env : Env) (df : DF) (s : St)
    (rd : DF) (ec : Nat) (st : Status)
    (h : p.rowDq = true) (hview : p.targetTableView ≠ "")
    (he : env.evalProcess .row (some df) = .ok (some rd, ec, st)) :
    runRowStage p env df s =
      errorThresholdBreachCheck p
        { s with
          ctx := { s.ctx with
            rowDqStatus := st
            rowDqStartTime := some s.ctx.clock
            rowDqEndTime := some (s.ctx.clock + 1)
            clock := s.ctx.clock + 2
            errorCount := ec
            outputCount := rd.cnt }
          rowDqDf := some rd
          errCnt := ec
          outCnt := rd.cnt
          trace := s.trace ++
            [.setStatus .row .failed, .setStartTime .row, .invoke .row (some df),
             .createView p.targetTableView rd, .setStatus .row st,
             .setEndTime .row] } := by
  simp [runRowStage, h, he, hview, setStageStatus, setStageStartTime, setStageEndTime, emit]

theorem runRowStage_ok_none (p : Params) (env : Env) (df : DF) (s : St)
    (ec : Nat) (st : Status)
    (h : p.rowDq = true)
    (he : env.evalProcess .row (some df) = .ok (none, ec, st)) :
    runRowStage p env df s =
      errorThresholdBreachCheck p
        { s with
          ctx := { s.ctx with
            rowDqStatus := st
            rowDqStartTime := some s.ctx.clock
            rowDqEndTime := some (s.ctx.clock + 1)
            clock := s.ctx.clock + 2
            errorCount := ec
            outputCount := 0 }
          rowDqDf := none
          errCnt := ec
          outCnt := 0
          trace := s.trace ++
            [.setStatus .row .failed, .setStartTime .row, .invoke .row (some df),
             .setStatus .row st, .setEndTime .row] } := by
  by_cases hv : p.targetTableView = "" <;>
    simp [runRowStage, h, he, hv, setStageStatus, setStageStartTime, setStageEndTime, emit]

theorem runRowStage_err (p : Params) (env : Env) (df : DF) (s : St) (msg : String)
    (h : p.rowDq = true)
    (he : env.evalProcess .row (some df) = .error msg) :
    runRowStage p env df s =
      ({ s with
          ctx := { s.ctx with
            rowDqStatus := .failed
            rowDqStartTime := some s.ctx.clock
            clock := s.ctx.clock + 1 }
          trace := s.trace ++
            [.setStatus .row .failed, .setStartTime .row,
             .invoke .row (some df)] }, some (.evalError .row msg)) := by
  simp [runRowStage, h, he, setStageStatus, setStageStartTime, emit]

theorem runFinalAggStage_off (p : Params) (env : Env) (s : St)
    (h : (p.rowDq && p.aggDq && p.targetAggDq) = false) :
    runFinalAggStage p env s = (s, none) := by
  simp only [runFinalAggStage, h]
  simp

theorem runFinalAggStage_ok (p : Params) (env : Env) (s : St)
    (d : Option DF) (n : Nat) (st : Status)
    (h : (p.rowDq && p.aggDq && p.targetAggDq) = true)
    (he : env.evalProcess .finalAgg s.rowDqDf = .ok (d, n, st)) :
    runFinalAggStage p env s =
      ({ s with
          ctx := { s.ctx with
            finalAggDqStatus := st
            finalAggDqStartTime := some s.ctx.clock
            finalAggDqEndTime := some (s.ctx.clock + 1)
            clock := s.ctx.clock + 2 }
          trace := s.trace ++
            [.setStatus .finalAgg .failed, .setStartTime .finalAgg,
             .invoke .finalAgg s.rowDqDf, .setStatus .finalAgg st,
             .setEndTime .finalAgg] }, none) := by
  simp [runFinalAggStage, h, he, setStageStatus, setStageStartTime, setStageEndTime, emit]

theorem runFinalAggStage_err (p : Params) (env : Env) (s : St) (msg : String)
    (h : (p.rowDq && p.aggDq && p.targetAggDq) = true)
    (he : env.evalProcess .finalAgg s.rowDqDf = .error msg) :
    runFinalAggStage p env s =
      ({ s with
          ctx := { s.ctx with
            finalAggDqStatus := .failed
            finalAggDqStartTime := some s.ctx.clock
            clock := s.ctx.clock + 1 }
          trace := s.trace ++
            [.setStatus .finalAgg .failed, .setStartTime .finalAgg,
             .invoke .finalAgg s.rowDqDf] }, some (.evalError .finalAgg msg)) := by
  simp [runFinalAggStage, h, he, setStageStatus, setStageStartTime, emit]

theorem runFinalQueryStage_off (p : Params) (env : Env) (s : St)
    (h : (p.rowDq && p.queryDq && p.targetQueryDq) = false) :
    runFinalQueryStage p env s = (s, none) := by
  simp only [runFinalQueryStage, h]
  simp

theorem runFinalQueryStage_ok (p : Params) (env : Env) (s : St)
    (rd : DF) (d : Option DF) (n : Nat) (st : Status)
    (h : (p.rowDq && p.queryDq && p.targetQueryDq) = true)
    (hrd : s.rowDqDf = some rd)
    (hview : p.targetTableView ≠ "")
    (he : env.evalProcess .finalQuery (some rd) = .ok (d, n, st)) :
    runFinalQueryStage p env s =
      ({ s with
          ctx := { s.ctx with
            finalQueryDqStatus := st
            finalQueryDqStartTime := some s.ctx.clock
            finalQueryDqEndTime := some (s.ctx.clock + 1)
            clock := s.ctx.clock + 2 }
          trace := s.trace ++
            [.setStatus .finalQuery .failed, .setStartTime .finalQuery,
             .createView p.targetTableView rd, .invoke .finalQuery (some rd),
             .setStatus .finalQuery st, .setEndTime .finalQuery] }, none) := by
  simp [runFinalQueryStage, h, hrd, hview, he, setStageStatus, setStageStartTime,
    setStageEndTime, emit]

theorem runFinalQueryStage_err (p : Params) (env : Env) (s : St) (rd : DF) (msg : String)
    (h : (p.rowDq && p.queryDq && p.targetQueryDq) = true)
    (hrd : s.rowDqDf = some rd)
    (hview : p.targetTableView ≠ "")
    (he : env.evalProcess .finalQuery (some rd) = .error msg) :
    runFinalQueryStage p env s =
      ({ s with
          ctx := { s.ctx with
            finalQueryDqStatus := .failed
            finalQueryDqStartTime := some s.ctx.clock
            clock := s.ctx.clock + 1 }
          trace := s.trace ++
            [.setStatus .finalQuery .failed, .setStartTime .finalQuery,
             .createView p.targetTableView rd,
             .invoke .finalQuery (some rd)] }, some (.evalError .finalQuery msg)) := by
  simp [runFinalQueryStage, h, hrd, hview, he, setStageStatus, setStageStartTime, emit]

theorem runFinalQueryStage_noView (p : Params) (env : Env) (s : St)
    (h : (p.rowDq && p.queryDq && p.targetQueryDq) = true)
    (hcase : p.targetTableView = "" ∨ s.rowDqDf = none) :
    runFinalQueryStage p env s =
      ({ s with
          ctx := { s.ctx with
            finalQueryDqStatus := .failed
            finalQueryDqStartTime := some s.ctx.clock
            clock := s.ctx.clock + 1 }
          trace := s.trace ++
            [.setStatus .finalQuery .failed,
             .setStartTime .finalQuery] }, some .viewNameMissing) := by
  rcases hcase with hv | hn
  · cases hrd : s.rowDqDf <;>
      simp [runFinalQueryStage, h, hv, hrd, setStageStatus, setStageStartTime, emit]
  · simp [runFinalQueryStage, h, hn, setStageStatus, setStageStartTime, emit]

theorem runWriteStage_off (p : Params) (s : St)
    (h : (p.rowDq && p.writeToTable) = false) :
    runWriteStage p s = (s, none) := by
  simp [runWriteStage, h]

theorem runWriteStage_on (p : Params) (s : St)
    (h : (p.rowDq && p.writeToTable) = true) :
    runWriteStage p s = ({ s with trace := s.trace ++ [.writeFinal s.rowDqDf] }, none) := by
  simp [runWriteStage, h, emit]

theorem allInvokes_append (t1 t2 : List Event) :
    allInvokes (t1 ++ t2) = allInvokes t1 ++ allInvokes t2 := by
  simp [allInvokes]

theorem invokesOf_append (stg : Stage) (t1 t2 : List Event) :
    invokesOf stg (t1 ++ t2) = invokesOf stg t1 ++ invokesOf stg t2 := by
  simp [invokesOf]

theorem stageEvents_append (stg : Stage) (t1 t2 : List Event) :
    stageEvents stg (t1 ++ t2) = stageEvents stg t1 ++ stageEvents stg t2 := by
  simp [stageEvents]

/-- The effect summary of a completed `source_agg` block: no exception, its
evaluator invocation recorded exactly when its flag conjunction holds, no
events or context fields of other stages touched. -/
theorem runSourceAggStage_total (p : Params) (env : Env) (df : DF) (s : St)
    (d : Option DF) (n : Nat) (st : Status)
    (he : env.evalProcess .sourceAgg (some df) = .ok (d, n, st)) :
    ∃ s', runSourceAggStage p env df s = (s', none) ∧
      allInvokes s'.trace = allInvokes s.trace ++
        (if p.aggDq && p.sourceAggDq then [(.sourceAgg, some df)] else []) ∧
      (∀ stg, stageEvents stg s'.trace = stageEvents stg s.trace ++
        (if (p.aggDq && p.sourceAggDq) = true ∧ stg = .sourceAgg then
          [.setStatus .sourceAgg .failed, .setStartTime .sourceAgg,
           .invoke .sourceAgg (some df), .setStatus .sourceAgg st,
           .setEndTime .sourceAgg] else [])) ∧
      s'.rowDqDf = s.rowDqDf ∧
      s'.ctx.inputCount = s.ctx.inputCount ∧
      (∀ stg, stg ≠ .sourceAgg → endTimeOf stg s'.ctx = endTimeOf stg s.ctx) ∧
      (.notifyErrorDropBreach ∈ s'.trace ↔ .notifyErrorDropBreach ∈ s.trace) := by
  by_cases h : (p.aggDq && p.sourceAggDq) = true
  · refine ⟨_, runSourceAggStage_ok p env df s d n st h he, ?_⟩
    refine ⟨?_, ?_, rfl, rfl, ?_, ?_⟩
    · simp [h, allInvokes_append, allInvokes]
    · intro stg
      by_cases hstg : stg = .sourceAgg
      · subst hstg; simp [h, stageEvents_append, stageEvents, isStageEvent]
      · simp [h, hstg, stageEvents_append, stageEvents, isStageEvent, Ne.symm hstg]
    · intro stg hstg
      cases stg <;> simp_all [endTimeOf]
    · simp
  · rw [runSourceAggStage_off p env df s (by simpa using h)]
    simp [h]

/-- The effect summary of a completed `source_query` block. -/
theorem runSourceQueryStage_total (p : Params) (env : Env) (df : DF) (s : St)
    (d : Option DF) (n : Nat) (st : Status)
    (he : env.evalProcess .sourceQuery (some df) = .ok (d, n, st)) :
    ∃ s', runSourceQueryStage p env df s = (s', none) ∧
      allInvokes s'.trace = allInvokes s.trace ++
        (if p.queryDq && p.sourceQueryDq then [(.sourceQuery, some df)] else []) ∧
      (∀ stg, stageEvents stg s'.trace = stageEvents stg s.trace ++
        (if (p.queryDq && p.sourceQueryDq) = true ∧ stg = .sourceQuery then
          [.setStatus .sourceQuery .failed, .setStartTime .sourceQuery,
           .invoke .sourceQuery (some df), .setStatus .sourceQuery st,
           .setEndTime .sourceQuery] else [])) ∧
      s'.rowDqDf = s.rowDqDf ∧
      s'.ctx.inputCount = s.ctx.inputCount ∧
      (∀ stg, stg ≠ .sourceQuery → endTimeOf stg s'.ctx = endTimeOf stg s.ctx) ∧
      (.notifyErrorDropBreach ∈ s'.trace ↔ .notifyErrorDropBreach ∈ s.trace) := by
  by_cases h : (p.queryDq && p.sourceQueryDq) = true
  · refine ⟨_, runSourceQueryStage_ok p env df s d n st h he, ?_⟩
    refine ⟨?_, ?_, rfl, rfl, ?_, ?_⟩
    · simp [h, allInvokes_append, allInvokes]
    · intro stg
      by_cases hstg : stg = .sourceQuery
      · subst hstg; simp [h, stageEvents_append, stageEvents, isStageEvent]
      · simp [h, hstg, stageEvents_append, stageEvents, isStageEvent, Ne.symm hstg]
    · intro stg hstg
      cases stg <;> simp_all [endTimeOf]
    · simp
  · rw [runSourceQueryStage_off p env df s (by simpa using h)]
    simp [h]

/-- The effect summary of a completed `final_agg` block running on the row
output `_row_dq_df`. -/
theorem runFinalAggStage_total (p : Params) (env : Env) (s : St)
    (rd : DF) (d : Option DF) (n : Nat) (st : Status)
    (hrd : p.rowDq = true → s.rowDqDf = some rd)
    (he : env.evalProcess .finalAgg (some rd) = .ok (d, n, st)) :
    ∃ s', runFinalAggStage p env s = (s', none) ∧
      allInvokes s'.trace = allInvokes s.trace ++
        (if p.rowDq && p.aggDq && p.targetAggDq then [(.finalAgg, some rd)] else []) ∧
      (∀ stg, stageEvents stg s'.trace = stageEvents stg s.trace ++
        (if (p.rowDq && p.aggDq && p.targetAggDq) = true ∧ stg = .finalAgg then
          [.setStatus .finalAgg .failed, .setStartTime .finalAgg,
           .invoke .finalAgg (some rd), .setStatus .finalAgg st,
           .setEndTime .finalAgg] else [])) ∧
      s'.rowDqDf = s.rowDqDf ∧
      s'.ctx.inputCount = s.ctx.inputCount ∧
      (∀ stg, stg ≠ .finalAgg → endTimeOf stg s'.ctx = endTimeOf stg s.ctx) ∧
      (.notifyErrorDropBreach ∈ s'.trace ↔ .notifyErrorDropBreach ∈ s.trace) := by
  by_cases h : (p.rowDq && p.aggDq && p.targetAggDq) = true
  · have hrow : p.rowDq = true := by
      rcases Bool.and_eq_true_iff.mp h with ⟨h1, -⟩
      exact (Bool.and_eq_true_iff.mp h1).1
    have hsome : s.rowDqDf = some rd := hrd hrow
    have he' : env.evalProcess .finalAgg s.rowDqDf = .ok (d, n, st) := by rw [hsome]; exact he
    refine ⟨_, runFinalAggStage_ok p env s d n st h he', ?_⟩
    refine ⟨?_, ?_, rfl, rfl, ?_, ?_⟩
    · simp [h, hsome, allInvokes_append, allInvokes]
    · intro stg
      by_cases hstg : stg = .finalAgg
      · subst hstg; simp [h, hsome, stageEvents_append, stageEvents, isStageEvent]
      · simp [h, hstg, stageEvents_append, stageEvents, isStageEvent, Ne.symm hstg]
    · intro stg hstg
      cases stg <;> simp_all [endTimeOf]
    · simp
  · rw [runFinalAggStage_off p env s (by simpa using h)]
    simp [h]

/-- The effect summary of a completed `final_query` block: the row output is
republished as the target view and the evaluator runs on it. -/
theorem runFinalQueryStage_total (p : Params) (env : Env) (s : St)
    (rd : DF) (d : Option DF) (n : Nat) (st : Status)
    (hrd : p.rowDq = true → s.rowDqDf = some rd)
    (hview : p.targetTableView ≠ "")
    (he : env.evalProcess .finalQuery (some rd) = .ok (d, n, st)) :
    ∃ s', runFinalQueryStage p env s = (s', none) ∧
      allInvokes s'.trace = allInvokes s.trace ++
        (if p.rowDq && p.queryDq && p.targetQueryDq then [(.finalQuery, some rd)] else []) ∧
      (∀ stg, stageEvents stg s'.trace = stageEvents stg s.trace ++
        (if (p.rowDq && p.queryDq && p.targetQueryDq) = true ∧ stg = .finalQuery then
          [.setStatus .finalQuery .failed, .setStartTime .finalQuery,
           .invoke .finalQuery (some rd), .setStatus .finalQuery st,
           .setEndTime .finalQuery] else [])) ∧
      s'.rowDqDf = s.rowDqDf ∧
      s'.ctx.inputCount = s.ctx.inputCount ∧
      (∀ stg, stg ≠ .finalQuery → endTimeOf stg s'.ctx = endTimeOf stg s.ctx) ∧
      (.notifyErrorDropBreach ∈ s'.trace ↔ .notifyErrorDropBreach ∈ s.trace) := by
  by_cases h : (p.rowDq && p.queryDq && p.targetQueryDq) = true
  · have hrow : p.rowDq = true := by
      rcases Bool.and_eq_true_iff.mp h with ⟨h1, -⟩
      exact (Bool.and_eq_true_iff.mp h1).1
    have hsome : s.rowDqDf = some rd := hrd hrow
    refine ⟨_, runFinalQueryStage_ok p env s rd d n st h hsome hview he, ?_⟩
    refine ⟨?_, ?_, rfl, rfl, ?_, ?_⟩
    · simp [h, allInvokes_append, allInvokes]
    · intro stg
      by_cases hstg : stg = .finalQuery
      · subst hstg; simp [h, stageEvents_append, stageEvents, isStageEvent]
      · simp [h, hstg, stageEvents_append, stageEvents, isStageEvent, Ne.symm hstg]
    · intro stg hstg
      cases stg <;> simp_all [endTimeOf]
    · simp
  · rw [runFinalQueryStage_off p env s (by simpa using h)]
    simp [h]

/-- The effect summary of the final-table write step: it records at most a
write event and touches nothing the stage claims observe. -/
theorem runWriteStage_total (p : Params) (s : St) :
    ∃ s', runWriteStage p s = (s', none) ∧
      allInvokes s'.trace = allInvokes s.trace ∧
      (∀ stg, stageEvents stg s'.trace = stageEvents stg s.trace) ∧
      s'.rowDqDf = s.rowDqDf ∧
      s'.ctx = s.ctx ∧
      (.notifyErrorDropBreach ∈ s'.trace ↔ .notifyErrorDropBreach ∈ s.trace) := by
  by_cases h : (p.rowDq && p.writeToTable) = true
  · refine ⟨_, runWriteStage_on p s h, ?_⟩
    simp [allInvokes_append, allInvokes, stageEvents_append, stageEvents, isStageEvent]
  · rw [runWriteStage_off p s (by simpa using h)]
    simp

/-- The effect summary of a completed `row` block whose evaluation produced a
row-filtered dataframe `rd`: the local `_row_dq_df` becomes `rd`, the breach
check may add a notification event but neither raises (the input count is
non-zero whenever the check computes the percentage) nor touches anything the
stage claims observe. -/
theorem runRowStage_total (p : Params) (env : Env) (df : DF) (s : St)
    (rd : DF) (ec : Nat) (st : Status)
    (hview : p.targetTableView ≠ "")
    (hbr : p.notifyOnErrorDropBreach = true → s.ctx.inputCount ≠ 0)
    (he : env.evalProcess .row (some df) = .ok (some rd, ec, st)) :
    ∃ s', runRowStage p env df s = (s', none) ∧
      allInvokes s'.trace = allInvokes s.trace ++
        (if p.rowDq then [(.row, some df)] else []) ∧
      (∀ stg, stageEvents stg s'.trace = stageEvents stg s.trace ++
        (if p.rowDq = true ∧ stg = .row then
          [.setStatus .row .failed, .setStartTime .row, .invoke .row (some df),
           .setStatus .row st, .setEndTime .row] else [])) ∧
      s'.rowDqDf = (if p.rowDq then some rd else s.rowDqDf) ∧
      s'.ctx.inputCount = s.ctx.inputCount ∧
      (∀ stg, stg ≠ .row → endTimeOf stg s'.ctx = endTimeOf stg s.ctx) := by
  by_cases hrow : p.rowDq = true
  · rw [runRowStage_ok_some p env df s rd ec st hrow hview he]
    by_cases hn : p.notifyOnErrorDropBreach = true
    · rw [errorThresholdBreachCheck_on p _ hn (by simpa using hbr hn)]
      split
      · refine ⟨_, rfl, ?_, ?_, ?_, ?_, ?_⟩
        · simp [hrow, emit, allInvokes_append, allInvokes]
        · intro stg
          by_cases hstg : stg = .row
          · subst hstg; simp [hrow, emit, stageEvents_append, stageEvents, isStageEvent]
          · simp [hrow, hstg, emit, stageEvents_append, stageEvents, isStageEvent,
              Ne.symm hstg]
        · simp [hrow, emit]
        · simp [emit]
        · intro stg hstg
          cases stg <;> simp_all [emit, endTimeOf]
      · refine ⟨_, rfl, ?_, ?_, ?_, ?_, ?_⟩
        · simp [hrow, allInvokes_append, allInvokes]
        · intro stg
          by_cases hstg : stg = .row
          · subst hstg; simp [hrow, stageEvents_append, stageEvents, isStageEvent]
          · simp [hrow, hstg, stageEvents_append, stageEvents, isStageEvent, Ne.symm hstg]
        · simp [hrow]
        · simp
        · intro stg hstg
          cases stg <;> simp_all [endTimeOf]
    · rw [errorThresholdBreachCheck_off p _ (by simpa using hn)]
      refine ⟨_, rfl, ?_, ?_, ?_, ?_, ?_⟩
      · simp [hrow, allInvokes_append, allInvokes]
      · intro stg
        by_cases hstg : stg = .row
        · subst hstg; simp [hrow, stageEvents_append, stageEvents, isStageEvent]
        · simp [hrow, hstg, stageEvents_append, stageEvents, isStageEvent, Ne.symm hstg]
      · simp [hrow]
      · simp
      · intro stg hstg
        cases stg <;> simp_all [endTimeOf]
  · rw [runRowStage_off p env df s (by simpa using hrow)]
    simp [hrow]

/-- C1: for an error-free run on a dataframe, each of the five stages executes
exactly when its flag conjunction holds and in the fixed order `source_agg`,
`source_query`, `row`, `final_agg`, `final_query`: `source_agg` runs iff
`agg_dq` and `source_agg_dq` are both enabled, `source_query` iff `query_dq`
and `source_query_dq`, `row` iff `row_dq`, `final_agg` iff `row_dq`, `agg_dq`
and `target_agg_dq`, `final_query` iff `row_dq`, `query_dq` and
`target_query_dq`; stages 1–3 receive the raw dataset and stages 4–5 receive
the row-filtered dataset produced by the row stage. -/
theorem c1_stage_eligibility_order_inputs
    (p : Params) (env : Env) (raw rd : DF)
    (d1 d2 d4 d5 : Option DF) (n1 n2 ec n4 n5 : Nat) (st1 st2 st3 st4 st5 : Status)
    (hf : env.funcResult = .dataFrame raw)
    (htmp : p.writeToTempTable = false)
    (hview : p.targetTableView ≠ "")
    (hbr : p.notifyOnErrorDropBreach = true → raw.cnt ≠ 0)
    (h1 : env.evalProcess .sourceAgg (some raw) = .ok (d1, n1, st1))
    (h2 : env.evalProcess .sourceQuery (some raw) = .ok (d2, n2, st2))
    (h3 : env.evalProcess .row (some raw) = .ok (some rd, ec, st3))
    (h4 : env.evalProcess .finalAgg (some rd) = .ok (d4, n4, st4))
    (h5 : env.evalProcess .finalQuery (some rd) = .ok (d5, n5, st5)) :
    allInvokes (wrapper p env).state.trace =
      (if p.aggDq && p.sourceAggDq then [(.sourceAgg, some raw)] else []) ++
      (if p.queryDq && p.sourceQueryDq then [(.sourceQuery, some raw)] else []) ++
      (if p.rowDq then [(.row, some raw)] else []) ++
      (if p.rowDq && p.aggDq && p.targetAggDq then [(.finalAgg, some rd)] else []) ++
      (if p.rowDq && p.queryDq && p.targetQueryDq then [(.finalQuery, some rd)] else []) := by
  have hs0in : (initContext p raw.cnt initSt).ctx.inputCount = raw.cnt := by
    simp [initContext, initSt, initCtx]
  have hs0tr : (initContext p raw.cnt initSt).trace = [] := by
    simp [initContext, initSt]
  obtain ⟨sA, hA, hAinv, hAev, hAdf, hAin, hAet, hAn⟩ :=
    runSourceAggStage_total p env raw (initContext p raw.cnt initSt) d1 n1 st1 h1
  obtain ⟨sB, hB, hBinv, hBev, hBdf, hBin, hBet, hBn⟩ :=
    runSourceQueryStage_total p env raw sA d2 n2 st2 h2
  obtain ⟨sC, hC, hCinv, hCev, hCdf, hCin, hCet⟩ :=
    runRowStage_total p env raw sB rd ec st3 hview
      (by intro hn; rw [hBin, hAin, hs0in]; exact hbr hn) h3
  obtain ⟨sD, hD, hDinv, hDev, hDdf, hDin, hDet, hDn⟩ :=
    runFinalAggStage_total p env sC rd d4 n4 st4
      (by intro hrow; rw [hCdf]; simp [hrow]) h4
  obtain ⟨sE, hE, hEinv, hEev, hEdf, hEin, hEet, hEn⟩ :=
    runFinalQueryStage_total p env sD rd d5 n5 st5
      (by intro hrow; rw [hDdf, hCdf]; simp [hrow]) hview h5
  obtain ⟨sF, hF, hFinv, hFev, hFdf, hFctx, hFn⟩ := runWriteStage_total p sE
  have hbody : wrapperBody p env initSt = (sF, .ok sF.rowDqDf) := by
    simp only [wrapperBody, runStages, hf, pyCount, htmp, Bool.false_eq_true, if_false]
    rw [hA, stepSeq_none, hB, stepSeq_none, hC, stepSeq_none, hD, stepSeq_none,
      hE, stepSeq_none, hF]
  have hw : (wrapper p env).state = sF := by
    simp [wrapper, hbody]
  rw [hw, hFinv, hEinv, hDinv, hCinv, hBinv, hAinv, hs0tr]
  simp [allInvokes]

theorem stepSeq_congr_id (r : St × Option Cause) (f : St → St × Option Cause)
    (h : ∀ s, f s = (s, none)) : stepSeq r f = r := by
  rcases r with ⟨s, c⟩
  cases c <;> simp [stepSeq, h]

/-- Whatever the evaluator outcome, the `source_agg` block leaves the final
stages' statuses, the row output, the write events and the final stages'
invocation records untouched. -/
theorem runSourceAggStage_pres (p : Params) (env : Env) (df : DF) (s : St) :
    (runSourceAggStage p env df s).1.ctx.finalAggDqStatus = s.ctx.finalAggDqStatus ∧
    (runSourceAggStage p env df s).1.ctx.finalQueryDqStatus = s.ctx.finalQueryDqStatus ∧
    (runSourceAggStage p env df s).1.rowDqDf = s.rowDqDf ∧
    invokesOf .finalAgg (runSourceAggStage p env df s).1.trace = invokesOf .finalAgg s.trace ∧
    invokesOf .finalQuery (runSourceAggStage p env df s).1.trace = invokesOf .finalQuery s.trace ∧
    (∀ d, Event.writeFinal d ∈ (runSourceAggStage p env df s).1.trace ↔
      Event.writeFinal d ∈ s.trace) := by
  by_cases h : (p.aggDq && p.sourceAggDq) = true
  · cases he : env.evalProcess .sourceAgg (some df) with
    | error msg =>
      rw [runSourceAggStage_err p env df s msg h he]
      simp [invokesOf_append, invokesOf]
    | ok x =>
      obtain ⟨d, n, st⟩ := x
      rw [runSourceAggStage_ok p env df s d n st h he]
      simp [invokesOf_append, invokesOf]
  · rw [runSourceAggStage_off p env df s (by simpa using h)]
    simp

/-- Whatever the evaluator outcome, the `source_query` block leaves the final
stages' statuses, the row output, the write events and the final stages'
invocation records untouched. -/
theorem runSourceQueryStage_pres (p : Params) (env : Env) (df : DF) (s : St) :
    (runSourceQueryStage p env df s).1.ctx.finalAggDqStatus = s.ctx.finalAggDqStatus ∧
    (runSourceQueryStage p env df s).1.ctx.finalQueryDqStatus = s.ctx.finalQueryDqStatus ∧
    (runSourceQueryStage p env df s).1.rowDqDf = s.rowDqDf ∧
    invokesOf .finalAgg (runSourceQueryStage p env df s).1.trace = invokesOf .finalAgg s.trace ∧
    invokesOf .finalQuery (runSourceQueryStage p env df s).1.trace = invokesOf .finalQuery s.trace ∧
    (∀ d, Event.writeFinal d ∈ (runSourceQueryStage p env df s).1.trace ↔
      Event.writeFinal d ∈ s.trace) := by
  by_cases h : (p.queryDq && p.sourceQueryDq) = true
  · cases he : env.evalProcess .sourceQuery (some df) with
    | error msg =>
      rw [runSourceQueryStage_err p env df s msg h he]
      simp [invokesOf_append, invokesOf]
    | ok x =>
      obtain ⟨d, n, st⟩ := x
      rw [runSourceQueryStage_ok p env df s d n st h he]
      simp [invokesOf_append, invokesOf]
  · rw [runSourceQueryStage_off p env df s (by simpa using h)]
    simp

/-- When `row_dq` is disabled the stage chain degenerates to the two source
blocks: whatever their outcomes, the final stages' statuses, invocation
records, the row output and the write events are those of the initial state. -/
theorem runStages_rowOff (p : Params) (env : Env) (df : DF) (s0 : St)
    (hrow : p.rowDq = false) :
    (runStages p env df s0).1.ctx.finalAggDqStatus = s0.ctx.finalAggDqStatus ∧
    (runStages p env df s0).1.ctx.finalQueryDqStatus = s0.ctx.finalQueryDqStatus ∧
    (runStages p env df s0).1.rowDqDf = s0.rowDqDf ∧
    invokesOf .finalAgg (runStages p env df s0).1.trace = invokesOf .finalAgg s0.trace ∧
    invokesOf .finalQuery (runStages p env df s0).1.trace = invokesOf .finalQuery s0.trace ∧
    (∀ d, Event.writeFinal d ∈ (runStages p env df s0).1.trace ↔
      Event.writeFinal d ∈ s0.trace) := by
  have hro : ∀ s, runRowStage p env df s = (s, none) := fun s =>
    runRowStage_off p env df s hrow
  have hfa : ∀ s, runFinalAggStage p env s = (s, none) := fun s =>
    runFinalAggStage_off p env s (by simp [hrow])
  have hfq : ∀ s, runFinalQueryStage p env s = (s, none) := fun s =>
    runFinalQueryStage_off p env s (by simp [hrow])
  have hwr : ∀ s, runWriteStage p s = (s, none) := fun s =>
    runWriteStage_off p s (by simp [hrow])
  have hchain : runStages p env df s0 =
      stepSeq (runSourceAggStage p env df s0) (runSourceQueryStage p env df) := by
    simp only [runStages, stepSeq_congr_id _ _ hro, stepSeq_congr_id _ _ hfa,
      stepSeq_congr_id _ _ hfq, stepSeq_congr_id _ _ hwr]
  obtain ⟨hA1, hA2, hA3, hA4, hA5, hA6⟩ := runSourceAggStage_pres p env df s0
  rcases hAe : runSourceAggStage p env df s0 with ⟨s1, c1⟩
  rw [hAe] at hA1 hA2 hA3 hA4 hA5 hA6
  cases c1 with
  | none =>
    obtain ⟨hB1, hB2, hB3, hB4, hB5, hB6⟩ := runSourceQueryStage_pres p env df s1
    rw [hchain, hAe, stepSeq_none]
    refine ⟨hB1.trans hA1, hB2.trans hA2, hB3.trans hA3, hB4.trans hA4,
      hB5.trans hA5, fun d => (hB6 d).trans (hA6 d)⟩
  | some c =>
    rw [hchain, hAe, stepSeq_some]
    exact ⟨hA1, hA2, hA3, hA4, hA5, hA6⟩

/-- When the wrapped function returns a dataframe, the final state of the run
is the state produced by the stage chain (started on the effective dataframe,
after the optional temp-table round trip). -/
theorem wrapper_state_df (p : Params) (env : Env) (raw : DF)
    (hf : env.funcResult = .dataFrame raw) :
    (wrapper p env).state =
      (runStages p env (if p.writeToTempTable then env.tempTableDF else raw)
        (if p.writeToTempTable then emit (.writeTemp raw) (initContext p raw.cnt initSt)
         else initContext p raw.cnt initSt)).1 := by
  by_cases htmp : p.writeToTempTable = true
  · rcases h : runStages p env env.tempTableDF
        (emit (.writeTemp raw) (initContext p raw.cnt initSt)) with ⟨s1, c1⟩
    cases c1 <;> simp [wrapper, wrapperBody, hf, pyCount, htmp, h]
  · rcases h : runStages p env raw (initContext p raw.cnt initSt) with ⟨s1, c1⟩
    cases c1 <;> simp [wrapper, wrapperBody, hf, pyCount, htmp, h]

/-- C2: if `row_dq` is disabled for a run, the `final_agg` and `final_query`
stages are never executed (no evaluator invocation is recorded for them) and
both report status `Skipped` at the end of the run, regardless of the other
flags and of the outcome of the source stages. -/
theorem c2_rowdq_disabled_final_stages_skipped (p : Params) (env : Env) (raw : DF)
    (hf : env.funcResult = .dataFrame raw) (hrow : p.rowDq = false) :
    statusOf .finalAgg (wrapper p env).state.ctx = .skipped ∧
    statusOf .finalQuery (wrapper p env).state.ctx = .skipped ∧
    invokesOf .finalAgg (wrapper p env).state.trace = [] ∧
    invokesOf .finalQuery (wrapper p env).state.trace = [] := by
  rw [wrapper_state_df p env raw hf]
  obtain ⟨k1, k2, k3, k4, k5, k6⟩ := runStages_rowOff p env
    (if p.writeToTempTable then env.tempTableDF else raw)
    (if p.writeToTempTable then emit (.writeTemp raw) (initContext p raw.cnt initSt)
     else initContext p raw.cnt initSt) hrow
  refine ⟨?_, ?_, ?_, ?_⟩
  · rw [statusOf, k1]
    by_cases htmp : p.writeToTempTable = true <;>
      simp [htmp, emit, initContext, initSt, initCtx]
  · rw [statusOf, k2]
    by_cases htmp : p.writeToTempTable = true <;>
      simp [htmp, emit, initContext, initSt, initCtx]
  · rw [k4]
    by_cases htmp : p.writeToTempTable = true <;>
      simp [htmp, emit, initContext, initSt, invokesOf]
  · rw [k5]
    by_cases htmp : p.writeToTempTable = true <;>
      simp [htmp, emit, initContext, initSt, invokesOf]

/-- Witness for C2 at concrete inputs: all other flags enabled, `row_dq`
disabled. -/
theorem c2_witness :
    statusOf .finalAgg (wrapper exParamsNoRow exEnv).state.ctx = .skipped ∧
    statusOf .finalQuery (wrapper exParamsNoRow exEnv).state.ctx = .skipped ∧
    invokesOf .finalAgg (wrapper exParamsNoRow exEnv).state.trace = [] ∧
    invokesOf .finalQuery (wrapper exParamsNoRow exEnv).state.trace = [] :=
  c2_rowdq_disabled_final_stages_skipped exParamsNoRow exEnv ⟨10⟩ rfl rfl

/-- Witness for C1 at concrete inputs: every flag enabled, a 10-row raw
dataset, an 8-row row-stage output. -/
theorem c1_witness :
    allInvokes (wrapper exParams exEnv).state.trace =
      [(.sourceAgg, some ⟨10⟩), (.sourceQuery, some ⟨10⟩), (.row, some ⟨10⟩),
       (.finalAgg, some ⟨8⟩), (.finalQuery, some ⟨8⟩)] := by
  have h := c1_stage_eligibility_order_inputs exParams exEnv ⟨10⟩ ⟨8⟩
    (some ⟨10⟩) (some ⟨10⟩) (some ⟨8⟩) (some ⟨8⟩) 0 0 2 0 0
    .passed .passed .passed .passed .passed
    rfl rfl (by simp [exParams]) (by simp [exParams])
    rfl rfl rfl rfl rfl
  simpa [exParams] using h

/-- C9: when `row_dq` is disabled, the wrapped function returns `None` rather
than a dataset (the returned value is the row-stage output `_row_dq_df`,
assigned only when the row stage runs), and no final-table write occurs even
when `write_to_table` is true. -/
theorem c9_rowdq_disabled_returns_none (p : Params) (env : Env) (raw : DF)
    (d1 d2 : Option DF) (n1 n2 : Nat) (st1 st2 : Status)
    (hf : env.funcResult = .dataFrame raw)
    (htmp : p.writeToTempTable = false)
    (hrow : p.rowDq = false)
    (h1 : env.evalProcess .sourceAgg (some raw) = .ok (d1, n1, st1))
    (h2 : env.evalProcess .sourceQuery (some raw) = .ok (d2, n2, st2)) :
    (wrapper p env).outcome = .ok none ∧
    ∀ d, Event.writeFinal d ∉ (wrapper p env).state.trace := by
  obtain ⟨sA, hA, hAinv, hAev, hAdf, hAin, hAet, hAn⟩ :=
    runSourceAggStage_total p env raw (initContext p raw.cnt initSt) d1 n1 st1 h1
  obtain ⟨sB, hB, hBinv, hBev, hBdf, hBin, hBet, hBn⟩ :=
    runSourceQueryStage_total p env raw sA d2 n2 st2 h2
  have hchain : runStages p env raw (initContext p raw.cnt initSt) = (sB, none) := by
    simp only [runStages]
    rw [hA, stepSeq_none, hB, stepSeq_none, runRowStage_off p env raw sB hrow,
      stepSeq_none, runFinalAggStage_off p env sB (by simp [hrow]), stepSeq_none,
      runFinalQueryStage_off p env sB (by simp [hrow]), stepSeq_none,
      runWriteStage_off p sB (by simp [hrow])]
  have hrdf : sB.rowDqDf = none := by
    rw [hBdf, hAdf]
    simp [initContext, initSt]
  have hbody : wrapperBody p env initSt = (sB, .ok none) := by
    simp only [wrapperBody, hf, pyCount, htmp, Bool.false_eq_true, if_false]
    rw [hchain]
    simp [hrdf]
  constructor
  · simp [wrapper, hbody]
  · intro d
    have hst : (wrapper p env).state = sB := by simp [wrapper, hbody]
    obtain ⟨-, -, -, -, -, k6⟩ :=
      runStages_rowOff p env raw (initContext p raw.cnt initSt) hrow
    rw [hchain] at k6
    rw [hst]
    intro hmem
    have := (k6 d).mp hmem
    simp [initContext, initSt] at this

/-- Witness for C9 at concrete inputs: `row_dq` disabled, `write_to_table`
enabled. -/
theorem c9_witness :
    (wrapper exParamsNoRow exEnv).outcome = .ok none ∧
    ∀ d, Event.writeFinal d ∉ (wrapper exParamsNoRow exEnv).state.trace :=
  c9_rowdq_disabled_returns_none exParamsNoRow exEnv ⟨10⟩
    (some ⟨10⟩) (some ⟨10⟩) 0 0 .passed .passed rfl rfl rfl rfl rfl

/-- The effect summary of the completed pipeline tail after the row block
(`final_agg`, `final_query`, final-table write): it preserves the row output
and adds no breach notification. -/
theorem runStagesTail_total (p : Params) (env : Env) (s2 : St) (rd : DF)
    (d4 d5 : Option DF) (n4 n5 : Nat) (st4 st5 : Status)
    (hrd : p.rowDq = true → s2.rowDqDf = some rd)
    (hview : p.targetTableView ≠ "")
    (h4 : env.evalProcess .finalAgg (some rd) = .ok (d4, n4, st4))
    (h5 : env.evalProcess .finalQuery (some rd) = .ok (d5, n5, st5)) :
    ∃ s', stepSeq (stepSeq (stepSeq (s2, none) (runFinalAggStage p env))
        (runFinalQueryStage p env)) (runWriteStage p) = (s', none) ∧
      s'.rowDqDf = s2.rowDqDf ∧
      (.notifyErrorDropBreach ∈ s'.trace ↔ .notifyErrorDropBreach ∈ s2.trace) := by
  obtain ⟨sD, hD, hDinv, hDev, hDdf, hDin, hDet, hDn⟩ :=
    runFinalAggStage_total p env s2 rd d4 n4 st4 hrd h4
  obtain ⟨sE, hE, hEinv, hEev, hEdf, hEin, hEet, hEn⟩ :=
    runFinalQueryStage_total p env sD rd d5 n5 st5
      (fun hrow => by rw [hDdf]; exact hrd hrow) hview h5
  obtain ⟨sF, hF, hFinv, hFev, hFdf, hFctx, hFn⟩ := runWriteStage_total p sE
  refine ⟨sF, ?_, ?_, ?_⟩
  · rw [stepSeq_none, hD, stepSeq_none, hE, stepSeq_none, hF]
  · rw [hFdf, hEdf, hDdf]
  · exact hFn.trans (hEn.trans hDn)

/-- The effect summary of the breach check followed by the pipeline tail,
started from an arbitrary post-row state `s1` carrying a row output: the run
completes, the row output survives, and a breach notification is present
afterwards iff it was already present or the check fired. -/
theorem runStagesAfterRow_total (p : Params) (env : Env) (s1 : St) (rd : DF)
    (d4 d5 : Option DF) (n4 n5 : Nat) (st4 st5 : Status)
    (hrd : s1.rowDqDf = some rd)
    (hin : s1.ctx.inputCount ≠ 0)
    (hview : p.targetTableView ≠ "")
    (h4 : env.evalProcess .finalAgg (some rd) = .ok (d4, n4, st4))
    (h5 : env.evalProcess .finalQuery (some rd) = .ok (d5, n5, st5)) :
    ∃ s', stepSeq (stepSeq (stepSeq (errorThresholdBreachCheck p s1)
        (runFinalAggStage p env)) (runFinalQueryStage p env)) (runWriteStage p) = (s', none) ∧
      s'.rowDqDf = some rd ∧
      ((.notifyErrorDropBreach ∈ s'.trace) ↔
        (.notifyErrorDropBreach ∈ s1.trace ∨
          (p.notifyOnErrorDropBreach = true ∧
            (100 : ℚ) - round2 ((s1.ctx.outputCount : ℚ) / (s1.ctx.inputCount : ℚ) * 100) ≥
              (p.errorDropThreshold : ℚ)))) := by
  by_cases hn : p.notifyOnErrorDropBreach = true
  · rw [errorThresholdBreachCheck_on p s1 hn hin]
    by_cases hcond : (100 : ℚ) -
        round2 ((s1.ctx.outputCount : ℚ) / (s1.ctx.inputCount : ℚ) * 100) ≥
        (p.errorDropThreshold : ℚ)
    · rw [if_pos hcond]
      obtain ⟨s', hs', hdf, hiff⟩ :=
        runStagesTail_total p env (emit .notifyErrorDropBreach s1) rd d4 d5 n4 n5 st4 st5
          (fun _ => by simp [emit, hrd]) hview h4 h5
      refine ⟨s', hs', by rw [hdf]; simp [emit, hrd], ?_⟩
      rw [hiff]
      simp [emit, hn, hcond]
    · rw [if_neg hcond]
      obtain ⟨s', hs', hdf, hiff⟩ :=
        runStagesTail_total p env s1 rd d4 d5 n4 n5 st4 st5 (fun _ => hrd) hview h4 h5
      refine ⟨s', hs', by rw [hdf, hrd], ?_⟩
      rw [hiff]
      simp [hcond]
  · rw [errorThresholdBreachCheck_off p s1 (by simpa using hn)]
    obtain ⟨s', hs', hdf, hiff⟩ :=
      runStagesTail_total p env s1 rd d4 d5 n4 n5 st4 st5 (fun _ => hrd) hview h4 h5
    refine ⟨s', hs', by rw [hdf, hrd], ?_⟩
    rw [hiff]
    simp [hn]

/-- C4: after the row stage, a threshold-breach notification is sent if and
only if breach notifications are enabled and `100 − output_percentage` is
greater than or equal to the run-level `error_drop_threshold`; the breach is
fire-and-continue: the run proceeds and completes without an exception. -/
theorem c4_threshold_breach_notification
    (p : Params) (env : Env) (raw rd : DF)
    (d1 d2 d4 d5 : Option DF) (n1 n2 ec n4 n5 : Nat) (st1 st2 st3 st4 st5 : Status)
    (hf : env.funcResult = .dataFrame raw)
    (htmp : p.writeToTempTable = false)
    (hview : p.targetTableView ≠ "")
    (hrow : p.rowDq = true)
    (hcnt : raw.cnt ≠ 0)
    (h1 : env.evalProcess .sourceAgg (some raw) = .ok (d1, n1, st1))
    (h2 : env.evalProcess .sourceQuery (some raw) = .ok (d2, n2, st2))
    (h3 : env.evalProcess .row (some raw) = .ok (some rd, ec, st3))
    (h4 : env.evalProcess .finalAgg (some rd) = .ok (d4, n4, st4))
    (h5 : env.evalProcess .finalQuery (some rd) = .ok (d5, n5, st5)) :
    ((Event.notifyErrorDropBreach ∈ (wrapper p env).state.trace) ↔
      (p.notifyOnErrorDropBreach = true ∧
        (100 : ℚ) - round2 ((rd.cnt : ℚ) / (raw.cnt : ℚ) * 100) ≥
          (p.errorDropThreshold : ℚ))) ∧
    (wrapper p env).outcome = .ok (some rd) := by
  obtain ⟨sA, hA, hAinv, hAev, hAdf, hAin, hAet, hAn⟩ :=
    runSourceAggStage_total p env raw (initContext p raw.cnt initSt) d1 n1 st1 h1
  obtain ⟨sB, hB, hBinv, hBev, hBdf, hBin, hBet, hBn⟩ :=
    runSourceQueryStage_total p env raw sA d2 n2 st2 h2
  have hinB : sB.ctx.inputCount = raw.cnt := by
    rw [hBin, hAin]
    simp [initContext, initSt]
  have hnotB : Event.notifyErrorDropBreach ∉ sB.trace := by
    intro hm
    have := hAn.mp (hBn.mp hm)
    simp [initContext, initSt] at this
  have hrowres := runRowStage_ok_some p env raw sB rd ec st3 hrow hview h3
  obtain ⟨s', hs', hdf, hiff⟩ :=
    runStagesAfterRow_total p env
      { sB with
        ctx := { sB.ctx with
          rowDqStatus := st3
          rowDqStartTime := some sB.ctx.clock
          rowDqEndTime := some (sB.ctx.clock + 1)
          clock := sB.ctx.clock + 2
          errorCount := ec
          outputCount := rd.cnt }
        rowDqDf := some rd
        errCnt := ec
        outCnt := rd.cnt
        trace := sB.trace ++
          [.setStatus .row .failed, .setStartTime .row, .invoke .row (some raw),
           .createView p.targetTableView rd, .setStatus .row st3,
           .setEndTime .row] } rd d4 d5 n4 n5 st4 st5 rfl
      (by simpa using hinB ▸ hcnt) hview h4 h5
  have hrs : runStages p env raw (initContext p raw.cnt initSt) = (s', none) := by
    simp only [runStages]
    rw [hA, stepSeq_none, hB, stepSeq_none, hrowres, hs']
  have hbody : wrapperBody p env initSt = (s', .ok (some rd)) := by
    simp only [wrapperBody, hf, pyCount, htmp, Bool.false_eq_true, if_false]
    rw [hrs]
    simp [hdf]
  have hst : (wrapper p env).state = s' := by simp [wrapper, hbody]
  constructor
  · rw [hst, hiff]
    simp [hnotB, hinB]
  · simp [wrapper, hbody]

/-- Witness for C4 at concrete inputs: breach notifications enabled with a
run-level threshold of 10; 10 raw rows, 8 output rows, so
`100 − 80.0 = 20 ≥ 10` and the notification fires while the run completes. -/
theorem c4_witness :
    Event.notifyErrorDropBreach ∈ (wrapper exParamsNotify exEnv).state.trace ∧
    (wrapper exParamsNotify exEnv).outcome = .ok (some ⟨8⟩) := by
  have h := c4_threshold_breach_notification exParamsNotify exEnv ⟨10⟩ ⟨8⟩
    (some ⟨10⟩) (some ⟨10⟩) (some ⟨8⟩) (some ⟨8⟩) 0 0 2 0 0
    .passed .passed .passed .passed .passed
    rfl rfl (by simp [exParamsNotify, exParams]) rfl (by simp)
    rfl rfl rfl rfl rfl
  refine ⟨h.1.mpr ⟨rfl, ?_⟩, h.2⟩
  norm_num [round2, exParamsNotify, exParams]

theorem runRowStage_ok_some_noview (p : Params) (env : Env) (df : DF) (s : St)
    (rd : DF) (ec : Nat) (st : Status)
    (h : p.rowDq = true) (hv : p.targetTableView = "")
    (he : env.evalProcess .row (some df) = .ok (some rd, ec, st)) :
    runRowStage p env df s =
      errorThresholdBreachCheck p
        { s with
          ctx := { s.ctx with
            rowDqStatus := st
            rowDqStartTime := some s.ctx.clock
            rowDqEndTime := some (s.ctx.clock + 1)
            clock := s.ctx.clock + 2
            errorCount := ec
            outputCount := rd.cnt }
          rowDqDf := some rd
          errCnt := ec
          outCnt := rd.cnt
          trace := s.trace ++
            [.setStatus .row .failed, .setStartTime .row, .invoke .row (some df),
             .setStatus .row st, .setEndTime .row] } := by
  simp [runRowStage, h, he, hv, setStageStatus, setStageStartTime, setStageEndTime, emit]

/-- The breach check completes whenever the percentage computation cannot
divide by zero; it never touches the context or the row output and adds no
stage events or invocations. -/
theorem errorThresholdBreachCheck_total (p : Params) (s : St)
    (hin : p.notifyOnErrorDropBreach = true → s.ctx.inputCount ≠ 0) :
    ∃ s', errorThresholdBreachCheck p s = (s', none) ∧
      s'.ctx = s.ctx ∧ s'.rowDqDf = s.rowDqDf ∧
      allInvokes s'.trace = allInvokes s.trace ∧
      (∀ stg, stageEvents stg s'.trace = stageEvents stg s.trace) := by
  by_cases hn : p.notifyOnErrorDropBreach = true
  · rw [errorThresholdBreachCheck_on p s hn (hin hn)]
    split
    · exact ⟨_, rfl, rfl, rfl, by simp [emit, allInvokes_append, allInvokes],
        fun stg => by simp [emit, stageEvents_append, stageEvents, isStageEvent]⟩
    · exact ⟨_, rfl, rfl, rfl, rfl, fun stg => rfl⟩
  · rw [errorThresholdBreachCheck_off p s (by simpa using hn)]
    exact ⟨_, rfl, rfl, rfl, rfl, fun stg => rfl⟩

/-- The effect summary of a completed `final_agg` block for an arbitrary
current row output (which may be `None`). -/
theorem runFinalAggStage_total_anyInput (p : Params) (env : Env) (s : St)
    (d : Option DF) (n : Nat) (st : Status)
    (he : env.evalProcess .finalAgg s.rowDqDf = .ok (d, n, st)) :
    ∃ s', runFinalAggStage p env s = (s', none) ∧
      s'.rowDqDf = s.rowDqDf ∧ s'.ctx.inputCount = s.ctx.inputCount ∧
      allInvokes s'.trace = allInvokes s.trace ++
        (if p.rowDq && p.aggDq && p.targetAggDq then [(.finalAgg, s.rowDqDf)] else []) ∧
      (∀ stg, stg ≠ .finalAgg → stageEvents stg s'.trace = stageEvents stg s.trace) ∧
      (∀ stg, stg ≠ .finalAgg → endTimeOf stg s'.ctx = endTimeOf stg s.ctx) := by
  by_cases h : (p.rowDq && p.aggDq && p.targetAggDq) = true
  · refine ⟨_, runFinalAggStage_ok p env s d n st h he, rfl, rfl, ?_, ?_, ?_⟩
    · simp [h, allInvokes_append, allInvokes]
    · intro stg hstg
      simp [stageEvents_append, stageEvents, isStageEvent, Ne.symm hstg]
    · intro stg hstg
      cases stg <;> simp_all [endTimeOf]
  · rw [runFinalAggStage_off p env s (by simpa using h)]
    simp [h]

/-- The invocation records of a stage are recoverable from its stage-event
record. -/
theorem invokesOf_stageEvents (stg : Stage) (tr : List Event) :
    invokesOf stg tr = (stageEvents stg tr).filterMap fun e =>
      match e with
      | .invoke s i => if s = stg then some i else none
      | _ => none := by
  induction tr with
  | nil => rfl
  | cons e rest ih =>
    cases e with
    | invoke s i =>
      by_cases hs : s = stg <;>
        simp [invokesOf, stageEvents, isStageEvent, hs, ih, invokesOf] <;>
        simp [invokesOf] at ih <;> exact ih
    | setStatus s st =>
      by_cases hs : s = stg <;>
        simp [invokesOf, stageEvents, isStageEvent, hs] <;>
        simp [invokesOf] at ih <;> exact ih
    | setStartTime s =>
      by_cases hs : s = stg <;>
        simp [invokesOf, stageEvents, isStageEvent, hs] <;>
        simp [invokesOf] at ih <;> exact ih
    | setEndTime s =>
      by_cases hs : s = stg <;>
        simp [invokesOf, stageEvents, isStageEvent, hs] <;>
        simp [invokesOf] at ih <;> exact ih
    | createView name d =>
      simp [invokesOf, stageEvents, isStageEvent]
      simp [invokesOf] at ih
      exact ih
    | notifyErrorDropBreach =>
      simp [invokesOf, stageEvents, isStageEvent]
      simp [invokesOf] at ih
      exact ih
    | writeFinal d =>
      simp [invokesOf, stageEvents, isStageEvent]
      simp [invokesOf] at ih
      exact ih
    | writeTemp d =>
      simp [invokesOf, stageEvents, isStageEvent]
      simp [invokesOf] at ih
      exact ih

/-- After a row block that produced `rowOut`, when the `final_query` stage is
eligible but the view cannot be published (empty view name or no row output),
the pipeline tail raises the view-missing configuration error before the
`final_query` evaluator is ever invoked. -/
theorem c5_aux (p : Params) (env : Env) (s1 : St) (rowOut : Option DF)
    (d4 : Option DF) (n4 : Nat) (st4 : Status)
    (hcond : (p.rowDq && p.queryDq && p.targetQueryDq) = true)
    (hdf : s1.rowDqDf = rowOut)
    (hcase : p.targetTableView = "" ∨ rowOut = none)
    (hin : p.notifyOnErrorDropBreach = true → s1.ctx.inputCount ≠ 0)
    (h4 : env.evalProcess .finalAgg rowOut = .ok (d4, n4, st4))
    (hev : stageEvents .finalQuery s1.trace = []) :
    ∃ s4, stepSeq (stepSeq (stepSeq (errorThresholdBreachCheck p s1)
        (runFinalAggStage p env)) (runFinalQueryStage p env)) (runWriteStage p) =
        (s4, some .viewNameMissing) ∧
      stageEvents .finalQuery s4.trace =
        [.setStatus .finalQuery .failed, .setStartTime .finalQuery] := by
  obtain ⟨s2, hs2, hctx2, hdf2, hinv2, hev2⟩ := errorThresholdBreachCheck_total p s1 hin
  obtain ⟨s3, hs3, hdf3, hin3, hinv3, hev3, het3⟩ :=
    runFinalAggStage_total_anyInput p env s2 d4 n4 st4
      (by rw [hdf2, hdf]; exact h4)
  obtain ⟨s4, hfq, htr4⟩ : ∃ s4, runFinalQueryStage p env s3 = (s4, some .viewNameMissing) ∧
      s4.trace = s3.trace ++ [.setStatus .finalQuery .failed, .setStartTime .finalQuery] := by
    rw [runFinalQueryStage_noView p env s3 hcond
      (by
        rcases hcase with hv | hn
        · exact Or.inl hv
        · exact Or.inr (by rw [hdf3, hdf2, hdf, hn]))]
    exact ⟨_, rfl, rfl⟩
  refine ⟨s4, ?_, ?_⟩
  · rw [hs2, stepSeq_none, hs3, stepSeq_none, hfq, stepSeq_some]
  · rw [htr4, stageEvents_append, hev3 .finalQuery (by simp), hev2 .finalQuery, hev]
    simp [stageEvents, isStageEvent]

/-- C5: when the `final_query` stage is eligible (`row_dq`, `query_dq`,
`target_query_dq` all enabled) but the row-filtered dataset cannot be
published as the named view (empty view name or no row-stage output), the
run raises the view-missing configuration error — wrapped by the run-level
handler — before any `final_query` evaluation executes. -/
theorem c5_final_query_without_view_raises
    (p : Params) (env : Env) (raw : DF) (rowOut : Option DF)
    (d1 d2 d4 : Option DF) (n1 n2 ec n4 : Nat) (st1 st2 st3 st4 : Status)
    (hf : env.funcResult = .dataFrame raw)
    (htmp : p.writeToTempTable = false)
    (hcond : (p.rowDq && p.queryDq && p.targetQueryDq) = true)
    (hcase : p.targetTableView = "" ∨ rowOut = none)
    (hbr : p.notifyOnErrorDropBreach = true → raw.cnt ≠ 0)
    (h1 : env.evalProcess .sourceAgg (some raw) = .ok (d1, n1, st1))
    (h2 : env.evalProcess .sourceQuery (some raw) = .ok (d2, n2, st2))
    (h3 : env.evalProcess .row (some raw) = .ok (rowOut, ec, st3))
    (h4 : env.evalProcess .finalAgg rowOut = .ok (d4, n4, st4)) :
    (wrapper p env).outcome = .error (.miscException .viewNameMissing) ∧
    invokesOf .finalQuery (wrapper p env).state.trace = [] := by
  have hrow : p.rowDq = true :=
    (Bool.and_eq_true_iff.mp (Bool.and_eq_true_iff.mp hcond).1).1
  obtain ⟨sA, hA, hAinv, hAev, hAdf, hAin, hAet, hAn⟩ :=
    runSourceAggStage_total p env raw (initContext p raw.cnt initSt) d1 n1 st1 h1
  obtain ⟨sB, hB, hBinv, hBev, hBdf, hBin, hBet, hBn⟩ :=
    runSourceQueryStage_total p env raw sA d2 n2 st2 h2
  have hinB : sB.ctx.inputCount = raw.cnt := by
    rw [hBin, hAin]
    simp [initContext, initSt]
  have hevB : stageEvents .finalQuery sB.trace = [] := by
    rw [hBev .finalQuery, hAev .finalQuery]
    simp [initContext, initSt, stageEvents]
  have hfin : ∃ s4, runStages p env raw (initContext p raw.cnt initSt) =
      (s4, some .viewNameMissing) ∧
      stageEvents .finalQuery s4.trace =
        [.setStatus .finalQuery .failed, .setStartTime .finalQuery] := by
    cases hro : rowOut with
    | none =>
      rw [hro] at h3 h4
      obtain ⟨s4, hs4, hev4⟩ := c5_aux p env
        { sB with
          ctx := { sB.ctx with
            rowDqStatus := st3
            rowDqStartTime := some sB.ctx.clock
            rowDqEndTime := some (sB.ctx.clock + 1)
            clock := sB.ctx.clock + 2
            errorCount := ec
            outputCount := 0 }
          rowDqDf := none
          errCnt := ec
          outCnt := 0
          trace := sB.trace ++
            [.setStatus .row .failed, .setStartTime .row, .invoke .row (some raw),
             .setStatus .row st3, .setEndTime .row] } none d4 n4 st4 hcond rfl (Or.inr rfl)
        (by
          intro hn
          simpa [hinB] using hbr hn)
        h4
        (by
          rw [stageEvents_append, hevB]
          simp [stageEvents, isStageEvent])
      refine ⟨s4, ?_, hev4⟩
      simp only [runStages]
      rw [hA, stepSeq_none, hB, stepSeq_none,
        runRowStage_ok_none p env raw sB ec st3 hrow h3, hs4]
    | some rd =>
      have hv : p.targetTableView = "" := by
        rcases hcase with hv | hn
        · exact hv
        · rw [hro] at hn
          cases hn
      rw [hro] at h3 h4
      obtain ⟨s4, hs4, hev4⟩ := c5_aux p env
        { sB with
          ctx := { sB.ctx with
            rowDqStatus := st3
            rowDqStartTime := some sB.ctx.clock
            rowDqEndTime := some (sB.ctx.clock + 1)
            clock := sB.ctx.clock + 2
            errorCount := ec
            outputCount := rd.cnt }
          rowDqDf := some rd
          errCnt := ec
          outCnt := rd.cnt
          trace := sB.trace ++
            [.setStatus .row .failed, .setStartTime .row, .invoke .row (some raw),
             .setStatus .row st3, .setEndTime .row] } (some rd) d4 n4 st4 hcond rfl (Or.inl hv)
        (by
          intro hn
          simpa [hinB] using hbr hn)
        h4
        (by
          rw [stageEvents_append, hevB]
          simp [stageEvents, isStageEvent])
      refine ⟨s4, ?_, hev4⟩
      simp only [runStages]
      rw [hA, stepSeq_none, hB, stepSeq_none,
        runRowStage_ok_some_noview p env raw sB rd ec st3 hrow hv h3, hs4]
  obtain ⟨s4, hs4, hev4⟩ := hfin
  have hbody : wrapperBody p env initSt = (s4, .error .viewNameMissing) := by
    simp only [wrapperBody, hf, pyCount, htmp, Bool.false_eq_true, if_false]
    rw [hs4]
  constructor
  · simp [wrapper, hbody]
  · have hst : (wrapper p env).state = s4 := by simp [wrapper, hbody]
    rw [hst, invokesOf_stageEvents, hev4]
    simp

/-- Witness for C5 at concrete inputs: the row evaluation completes without an
output dataframe, so the eligible `final_query` stage raises the view-missing
error and is never invoked. -/
theorem c5_witness :
    (wrapper exParams exEnvRowNone).outcome = .error (.miscException .viewNameMissing) ∧
    invokesOf .finalQuery (wrapper exParams exEnvRowNone).state.trace = [] :=
  c5_final_query_without_view_raises exParams exEnvRowNone ⟨10⟩ none
    (some ⟨10⟩) (some ⟨10⟩) none 0 0 2 0 .passed .passed .passed .passed
    rfl rfl rfl (Or.inr rfl) (by simp [exParams]) rfl rfl rfl rfl

/-- Counterexample to C6 as stated: the wrapped function returns `None` (a
non-dataframe); `_df.count()` raises before the `isinstance` check is reached,
so the run fails with the generic processing exception wrapping that error —
the dedicated dataframe-not-returned exception is never raised. -/
theorem c6_counterexample :
    (wrapper exParams exEnvNotDFNoCount).outcome =
      .error (.miscException .countCallFailed) ∧
    RunError.miscException .countCallFailed ≠
      RunError.miscException .dataframeNotReturned := by
  constructor
  · rfl
  · decide

/-- C6 (amended): when the wrapped function returns a non-dataframe value, no
DQ stage executes on it and the caller sees the generic
`SparkExpectationsMiscException`; the wrapped cause is the dedicated
dataframe-not-returned exception only when calling `count()` on the value
succeeds, and the error of the `count()` call itself otherwise. -/
theorem c6_amended_nondataframe_contract (p : Params) (env : Env) (c : Option Nat)
    (hf : env.funcResult = .notDataFrame c) :
    (wrapper p env).outcome =
      .error (.miscException
        (match c with
         | some _ => .dataframeNotReturned
         | none => .countCallFailed)) ∧
    allInvokes (wrapper p env).state.trace = [] := by
  cases c with
  | none =>
    have hbody : wrapperBody p env initSt = (initSt, .error .countCallFailed) := by
      simp [wrapperBody, hf, pyCount]
    have hw : wrapper p env = ⟨initSt, .error (.miscException .countCallFailed)⟩ := by
      simp [wrapper, hbody]
    rw [hw]
    exact ⟨rfl, by simp [initSt, allInvokes]⟩
  | some n =>
    have hbody : wrapperBody p env initSt =
        (initContext p n initSt, .error .dataframeNotReturned) := by
      simp [wrapperBody, hf, pyCount]
    have hw : wrapper p env =
        ⟨initContext p n initSt, .error (.miscException .dataframeNotReturned)⟩ := by
      simp [wrapper, hbody]
    rw [hw]
    exact ⟨rfl, by simp [initContext, initSt, allInvokes]⟩

/-- Witness for the amended C6 at a concrete input: a non-dataframe whose
`count()` succeeds reaches the `isinstance` check and the dedicated exception,
wrapped by the run-level handler. -/
theorem c6_witness :
    (wrapper exParams exEnvNotDFCount).outcome =
      .error (.miscException .dataframeNotReturned) ∧
    allInvokes (wrapper exParams exEnvNotDFCount).state.trace = [] := by
  have h := c6_amended_nondataframe_contract exParams exEnvNotDFCount (some 7) rfl
  simpa using h

/-- When the `source_agg` evaluation raises, the run fails with the generic
processing exception wrapping the evaluation error, the stage's status is left
at the pessimistic `Failed`, its end time remains unset, and the trace ends at
the failing invocation. -/
theorem wrapper_evalError_sourceAgg (p : Params) (env : Env) (raw : DF) (msg : String)
    (hf : env.funcResult = .dataFrame raw)
    (htmp : p.writeToTempTable = false)
    (hcond : (p.aggDq && p.sourceAggDq) = true)
    (he : env.evalProcess .sourceAgg (some raw) = .error msg) :
    ∃ s', wrapper p env = ⟨s', .error (.miscException (.evalError .sourceAgg msg))⟩ ∧
      statusOf .sourceAgg s'.ctx = .failed ∧
      endTimeOf .sourceAgg s'.ctx = none ∧
      ∃ pre, s'.trace = pre ++ [.invoke .sourceAgg (some raw)] := by
  obtain ⟨sE, hEq, hst, het, htr⟩ :
      ∃ sE, runSourceAggStage p env raw (initContext p raw.cnt initSt) =
          (sE, some (.evalError .sourceAgg msg)) ∧
        sE.ctx.sourceAggDqStatus = .failed ∧
        sE.ctx.sourceAggDqEndTime = none ∧
        sE.trace = (initContext p raw.cnt initSt).trace ++
          [.setStatus .sourceAgg .failed, .setStartTime .sourceAgg,
           .invoke .sourceAgg (some raw)] := by
    rw [runSourceAggStage_err p env raw (initContext p raw.cnt initSt) msg hcond he]
    exact ⟨_, rfl, rfl, by simp [initContext, initSt, initCtx], rfl⟩
  have hchain : runStages p env raw (initContext p raw.cnt initSt) =
      (sE, some (.evalError .sourceAgg msg)) := by
    simp only [runStages]
    rw [hEq, stepSeq_some, stepSeq_some, stepSeq_some, stepSeq_some, stepSeq_some]
  have hbody : wrapperBody p env initSt = (sE, .error (.evalError .sourceAgg msg)) := by
    simp only [wrapperBody, hf, pyCount, htmp, Bool.false_eq_true, if_false]
    rw [hchain]
  refine ⟨sE, by simp [wrapper, hbody], by simp [statusOf, hst], by simp [endTimeOf, het],
    ⟨(initContext p raw.cnt initSt).trace ++
      [.setStatus .sourceAgg .failed, .setStartTime .sourceAgg], ?_⟩⟩
  rw [htr]
  simp

/-- When the `source_query` evaluation raises (the preceding `source_agg`
block having completed), the run fails wrapping that error, the stage status
is left `Failed` with no end time, and the trace ends at the failing
invocation. -/
theorem wrapper_evalError_sourceQuery (p : Params) (env : Env) (raw : DF) (msg : String)
    (d1 : Option DF) (n1 : Nat) (st1 : Status)
    (hf : env.funcResult = .dataFrame raw)
    (htmp : p.writeToTempTable = false)
    (hcond : (p.queryDq && p.sourceQueryDq) = true)
    (h1 : env.evalProcess .sourceAgg (some raw) = .ok (d1, n1, st1))
    (he : env.evalProcess .sourceQuery (some raw) = .error msg) :
    ∃ s', wrapper p env = ⟨s', .error (.miscException (.evalError .sourceQuery msg))⟩ ∧
      statusOf .sourceQuery s'.ctx = .failed ∧
      endTimeOf .sourceQuery s'.ctx = none ∧
      ∃ pre, s'.trace = pre ++ [.invoke .sourceQuery (some raw)] := by
  obtain ⟨sA, hA, hAinv, hAev, hAdf, hAin, hAet, hAn⟩ :=
    runSourceAggStage_total p env raw (initContext p raw.cnt initSt) d1 n1 st1 h1
  obtain ⟨sE, hEq, hst, het, htr⟩ :
      ∃ sE, runSourceQueryStage p env raw sA = (sE, some (.evalError .sourceQuery msg)) ∧
        sE.ctx.sourceQueryDqStatus = .failed ∧
        sE.ctx.sourceQueryDqEndTime = sA.ctx.sourceQueryDqEndTime ∧
        sE.trace = sA.trace ++
          [.setStatus .sourceQuery .failed, .setStartTime .sourceQuery,
           .invoke .sourceQuery (some raw)] := by
    rw [runSourceQueryStage_err p env raw sA msg hcond he]
    exact ⟨_, rfl, rfl, rfl, rfl⟩
  have hchain : runStages p env raw (initContext p raw.cnt initSt) =
      (sE, some (.evalError .sourceQuery msg)) := by
    simp only [runStages]
    rw [hA, stepSeq_none, hEq, stepSeq_some, stepSeq_some, stepSeq_some, stepSeq_some]
  have hbody : wrapperBody p env initSt = (sE, .error (.evalError .sourceQuery msg)) := by
    simp only [wrapperBody, hf, pyCount, htmp, Bool.false_eq_true, if_false]
    rw [hchain]
  refine ⟨sE, by simp [wrapper, hbody], by simp [statusOf, hst], ?_,
    ⟨sA.trace ++ [.setStatus .sourceQuery .failed, .setStartTime .sourceQuery], ?_⟩⟩
  · rw [endTimeOf, het]
    have := hAet .sourceQuery (by simp)
    rw [endTimeOf] at this
    rw [this]
    simp [initContext, initSt, initCtx]
  · rw [htr]
    simp

/-- When the `row` evaluation raises (the source blocks having completed), the
run fails wrapping that error, the row status is left `Failed` with no end
time, and the trace ends at the failing invocation. -/
theorem wrapper_evalError_row (p : Params) (env : Env) (raw : DF) (msg : String)
    (d1 d2 : Option DF) (n1 n2 : Nat) (st1 st2 : Status)
    (hf : env.funcResult = .dataFrame raw)
    (htmp : p.writeToTempTable = false)
    (hcond : p.rowDq = true)
    (h1 : env.evalProcess .sourceAgg (some raw) = .ok (d1, n1, st1))
    (h2 : env.evalProcess .sourceQuery (some raw) = .ok (d2, n2, st2))
    (he : env.evalProcess .row (some raw) = .error msg) :
    ∃ s', wrapper p env = ⟨s', .error (.miscException (.evalError .row msg))⟩ ∧
      statusOf .row s'.ctx = .failed ∧
      endTimeOf .row s'.ctx = none ∧
      ∃ pre, s'.trace = pre ++ [.invoke .row (some raw)] := by
  obtain ⟨sA, hA, hAinv, hAev, hAdf, hAin, hAet, hAn⟩ :=
    runSourceAggStage_total p env raw (initContext p raw.cnt initSt) d1 n1 st1 h1
  obtain ⟨sB, hB, hBinv, hBev, hBdf, hBin, hBet, hBn⟩ :=
    runSourceQueryStage_total p env raw sA d2 n2 st2 h2
  obtain ⟨sE, hEq, hst, het, htr⟩ :
      ∃ sE, runRowStage p env raw sB = (sE, some (.evalError .row msg)) ∧
        sE.ctx.rowDqStatus = .failed ∧
        sE.ctx.rowDqEndTime = sB.ctx.rowDqEndTime ∧
        sE.trace = sB.trace ++
          [.setStatus .row .failed, .setStartTime .row, .invoke .row (some raw)] := by
    rw [runRowStage_err p env raw sB msg hcond he]
    exact ⟨_, rfl, rfl, rfl, rfl⟩
  have hchain : runStages p env raw (initContext p raw.cnt initSt) =
      (sE, some (.evalError .row msg)) := by
    simp only [runStages]
    rw [hA, stepSeq_none, hB, stepSeq_none, hEq, stepSeq_some, stepSeq_some, stepSeq_some]
  have hbody : wrapperBody p env initSt = (sE, .error (.evalError .row msg)) := by
    simp only [wrapperBody, hf, pyCount, htmp, Bool.false_eq_true, if_false]
    rw [hchain]
  refine ⟨sE, by simp [wrapper, hbody], by simp [statusOf, hst], ?_,
    ⟨sB.trace ++ [.setStatus .row .failed, .setStartTime .row], ?_⟩⟩
  · rw [endTimeOf, het]
    have h1' := hBet .row (by simp)
    have h2' := hAet .row (by simp)
    rw [endTimeOf] at h1' h2'
    rw [h1', h2']
    simp [initContext, initSt, initCtx]
  · rw [htr]
    simp

/-- When the `final_agg` evaluation raises (the earlier blocks having
completed with a row output), the run fails wrapping that error, the stage
status is left `Failed` with no end time, and the trace ends at the failing
invocation. -/
theorem wrapper_evalError_finalAgg (p : Params) (env : Env) (raw rd : DF) (msg : String)
    (d1 d2 : Option DF) (n1 n2 ec : Nat) (st1 st2 st3 : Status)
    (hf : env.funcResult = .dataFrame raw)
    (htmp : p.writeToTempTable = false)
    (hview : p.targetTableView ≠ "")
    (hbr : p.notifyOnErrorDropBreach = true → raw.cnt ≠ 0)
    (hcond : (p.rowDq && p.aggDq && p.targetAggDq) = true)
    (h1 : env.evalProcess .sourceAgg (some raw) = .ok (d1, n1, st1))
    (h2 : env.evalProcess .sourceQuery (some raw) = .ok (d2, n2, st2))
    (h3 : env.evalProcess .row (some raw) = .ok (some rd, ec, st3))
    (he : env.evalProcess .finalAgg (some rd) = .error msg) :
    ∃ s', wrapper p env = ⟨s', .error (.miscException (.evalError .finalAgg msg))⟩ ∧
      statusOf .finalAgg s'.ctx = .failed ∧
      endTimeOf .finalAgg s'.ctx = none ∧
      ∃ pre, s'.trace = pre ++ [.invoke .finalAgg (some rd)] := by
  have hrow : p.rowDq = true :=
    (Bool.and_eq_true_iff.mp (Bool.and_eq_true_iff.mp hcond).1).1
  obtain ⟨sA, hA, hAinv, hAev, hAdf, hAin, hAet, hAn⟩ :=
    runSourceAggStage_total p env raw (initContext p raw.cnt initSt) d1 n1 st1 h1
  obtain ⟨sB, hB, hBinv, hBev, hBdf, hBin, hBet, hBn⟩ :=
    runSourceQueryStage_total p env raw sA d2 n2 st2 h2
  have hinB : sB.ctx.inputCount = raw.cnt := by
    rw [hBin, hAin]
    simp [initContext, initSt]
  obtain ⟨s2, hs2, hctx2, hdf2, hinv2, hev2⟩ :=
    errorThresholdBreachCheck_total p
      { sB with
        ctx := { sB.ctx with
          rowDqStatus := st3
          rowDqStartTime := some sB.ctx.clock
          rowDqEndTime := some (sB.ctx.clock + 1)
          clock := sB.ctx.clock + 2
          errorCount := ec
          outputCount := rd.cnt }
        rowDqDf := some rd
        errCnt := ec
        outCnt := rd.cnt
        trace := sB.trace ++
          [.setStatus .row .failed, .setStartTime .row, .invoke .row (some raw),
           .createView p.targetTableView rd, .setStatus .row st3,
           .setEndTime .row] }
      (by
        intro hn
        simpa [hinB] using hbr hn)
  have he' : env.evalProcess .finalAgg s2.rowDqDf = .error msg := by
    rw [hdf2]
    exact he
  obtain ⟨sE, hEq, hst, het, htr⟩ :
      ∃ sE, runFinalAggStage p env s2 = (sE, some (.evalError .finalAgg msg)) ∧
        sE.ctx.finalAggDqStatus = .failed ∧
        sE.ctx.finalAggDqEndTime = s2.ctx.finalAggDqEndTime ∧
        sE.trace = s2.trace ++
          [.setStatus .finalAgg .failed, .setStartTime .finalAgg,
           .invoke .finalAgg s2.rowDqDf] := by
    rw [runFinalAggStage_err p env s2 msg hcond he']
    exact ⟨_, rfl, rfl, rfl, rfl⟩
  have hchain : runStages p env raw (initContext p raw.cnt initSt) =
      (sE, some (.evalError .finalAgg msg)) := by
    simp only [runStages]
    rw [hA, stepSeq_none, hB, stepSeq_none,
      runRowStage_ok_some p env raw sB rd ec st3 hrow hview h3, hs2, stepSeq_none,
      hEq, stepSeq_some, stepSeq_some]
  have hbody : wrapperBody p env initSt = (sE, .error (.evalError .finalAgg msg)) := by
    simp only [wrapperBody, hf, pyCount, htmp, Bool.false_eq_true, if_false]
    rw [hchain]
  refine ⟨sE, by simp [wrapper, hbody], by simp [statusOf, hst], ?_,
    ⟨s2.trace ++ [.setStatus .finalAgg .failed, .setStartTime .finalAgg], ?_⟩⟩
  · rw [endTimeOf, het, hctx2]
    have h1' := hBet .finalAgg (by simp)
    have h2' := hAet .finalAgg (by simp)
    rw [endTimeOf] at h1' h2'
    simp only []
    rw [show ({ sB.ctx with
        rowDqStatus := st3
        rowDqStartTime := some sB.ctx.clock
        rowDqEndTime := some (sB.ctx.clock + 1)
        clock := sB.ctx.clock + 2
        errorCount := ec
        outputCount := rd.cnt } : Ctx).finalAggDqEndTime = sB.ctx.finalAggDqEndTime from rfl,
      h1', h2']
    simp [initContext, initSt, initCtx]
  · rw [htr, hdf2]
    simp

/-- When the `final_query` evaluation raises (the earlier blocks having
completed with a row output), the run fails wrapping that error, the stage
status is left `Failed` with no end time, and the trace ends at the failing
invocation. -/
theorem wrapper_evalError_finalQuery (p : Params) (env : Env) (raw rd : DF) (msg : String)
    (d1 d2 d4 : Option DF) (n1 n2 ec n4 : Nat) (st1 st2 st3 st4 : Status)
    (hf : env.funcResult = .dataFrame raw)
    (htmp : p.writeToTempTable = false)
    (hview : p.targetTableView ≠ "")
    (hbr : p.notifyOnErrorDropBreach = true → raw.cnt ≠ 0)
    (hcond : (p.rowDq && p.queryDq && p.targetQueryDq) = true)
    (h1 : env.evalProcess .sourceAgg (some raw) = .ok (d1, n1, st1))
    (h2 : env.evalProcess .sourceQuery (some raw) = .ok (d2, n2, st2))
    (h3 : env.evalProcess .row (some raw) = .ok (some rd, ec, st3))
    (h4 : env.evalProcess .finalAgg (some rd) = .ok (d4, n4, st4))
    (he : env.evalProcess .finalQuery (some rd) = .error msg) :
    ∃ s', wrapper p env = ⟨s', .error (.miscException (.evalError .finalQuery msg))⟩ ∧
      statusOf .finalQuery s'.ctx = .failed ∧
      endTimeOf .finalQuery s'.ctx = none ∧
      ∃ pre, s'.trace = pre ++ [.invoke .finalQuery (some rd)] := by
  have hrow : p.rowDq = true :=
    (Bool.and_eq_true_iff.mp (Bool.and_eq_true_iff.mp hcond).1).1
  obtain ⟨sA, hA, hAinv, hAev, hAdf, hAin, hAet, hAn⟩ :=
    runSourceAggStage_total p env raw (initContext p raw.cnt initSt) d1 n1 st1 h1
  obtain ⟨sB, hB, hBinv, hBev, hBdf, hBin, hBet, hBn⟩ :=
    runSourceQueryStage_total p env raw sA d2 n2 st2 h2
  have hinB : sB.ctx.inputCount = raw.cnt := by
    rw [hBin, hAin]
    simp [initContext, initSt]
  obtain ⟨s2, hs2, hctx2, hdf2, hinv2, hev2⟩ :=
    errorThresholdBreachCheck_total p
      { sB with
        ctx := { sB.ctx with
          rowDqStatus := st3
          rowDqStartTime := some sB.ctx.clock
          rowDqEndTime := some (sB.ctx.clock + 1)
          clock := sB.ctx.clock + 2
          errorCount := ec
          outputCount := rd.cnt }
        rowDqDf := some rd
        errCnt := ec
        outCnt := rd.cnt
        trace := sB.trace ++
          [.setStatus .row .failed, .setStartTime .row, .invoke .row (some raw),
           .createView p.targetTableView rd, .setStatus .row st3,
           .setEndTime .row] }
      (by
        intro hn
        simpa [hinB] using hbr hn)
  obtain ⟨s3, hs3, hdf3, hin3, hinv3, hev3, het3⟩ :=
    runFinalAggStage_total_anyInput p env s2 d4 n4 st4
      (by rw [hdf2]; exact h4)
  have hrd3 : s3.rowDqDf = some rd := by rw [hdf3, hdf2]
  obtain ⟨sE, hEq, hst, het, htr⟩ :
      ∃ sE, runFinalQueryStage p env s3 = (sE, some (.evalError .finalQuery msg)) ∧
        sE.ctx.finalQueryDqStatus = .failed ∧
        sE.ctx.finalQueryDqEndTime = s3.ctx.finalQueryDqEndTime ∧
        sE.trace = s3.trace ++
          [.setStatus .finalQuery .failed, .setStartTime .finalQuery,
           .createView p.targetTableView rd, .invoke .finalQuery (some rd)] := by
    rw [runFinalQueryStage_err p env s3 rd msg hcond hrd3 hview he]
    exact ⟨_, rfl, rfl, rfl, rfl⟩
  have hchain : runStages p env raw (initContext p raw.cnt initSt) =
      (sE, some (.evalError .finalQuery msg)) := by
    simp only [runStages]
    rw [hA, stepSeq_none, hB, stepSeq_none,
      runRowStage_ok_some p env raw sB rd ec st3 hrow hview h3, hs2, stepSeq_none,
      hs3, stepSeq_none, hEq, stepSeq_some]
  have hbody : wrapperBody p env initSt = (sE, .error (.evalError .finalQuery msg)) := by
    simp only [wrapperBody, hf, pyCount, htmp, Bool.false_eq_true, if_false]
    rw [hchain]
  refine ⟨sE, by simp [wrapper, hbody], by simp [statusOf, hst], ?_,
    ⟨s3.trace ++ [.setStatus .finalQuery .failed, .setStartTime .finalQuery,
      .createView p.targetTableView rd], ?_⟩⟩
  · rw [endTimeOf, het]
    have h3' := het3 .finalQuery (by simp)
    rw [endTimeOf] at h3'
    rw [h3', hctx2]
    have h1' := hBet .finalQuery (by simp)
    have h2' := hAet .finalQuery (by simp)
    rw [endTimeOf] at h1' h2'
    rw [show ({ sB.ctx with
        rowDqStatus := st3
        rowDqStartTime := some sB.ctx.clock
        rowDqEndTime := some (sB.ctx.clock + 1)
        clock := sB.ctx.clock + 2
        errorCount := ec
        outputCount := rd.cnt } : Ctx).finalQueryDqEndTime = sB.ctx.finalQueryDqEndTime from rfl,
      h1', h2']
    simp [initContext, initSt, initCtx]
  · rw [htr]
    simp

/-- C8: every error raised during stage execution elevates to the run level:
the caller receives the generic processing exception
(`SparkExpectationsMiscException`) wrapping the underlying evaluation error
and its message, the error is never silently swallowed, and the run does not
continue past the stage it could not complete — the trace ends at the failing
invocation.  Stated for each of the five stages reached by an otherwise
error-free prefix. -/
theorem c8_stage_errors_elevate_to_run_level :
    (∀ (p : Params) (env : Env) (raw : DF) (msg : String),
      env.funcResult = .dataFrame raw → p.writeToTempTable = false →
      (p.aggDq && p.sourceAggDq) = true →
      env.evalProcess .sourceAgg (some raw) = .error msg →
      (wrapper p env).outcome = .error (.miscException (.evalError .sourceAgg msg)) ∧
      ∃ pre, (wrapper p env).state.trace = pre ++ [.invoke .sourceAgg (some raw)]) ∧
    (∀ (p : Params) (env : Env) (raw : DF) (msg : String) (d1 : Option DF)
        (n1 : Nat) (st1 : Status),
      env.funcResult = .dataFrame raw → p.writeToTempTable = false →
      (p.queryDq && p.sourceQueryDq) = true →
      env.evalProcess .sourceAgg (some raw) = .ok (d1, n1, st1) →
      env.evalProcess .sourceQuery (some raw) = .error msg →
      (wrapper p env).outcome = .error (.miscException (.evalError .sourceQuery msg)) ∧
      ∃ pre, (wrapper p env).state.trace = pre ++ [.invoke .sourceQuery (some raw)]) ∧
    (∀ (p : Params) (env : Env) (raw : DF) (msg : String) (d1 d2 : Option DF)
        (n1 n2 : Nat) (st1 st2 : Status),
      env.funcResult = .dataFrame raw → p.writeToTempTable = false →
      p.rowDq = true →
      env.evalProcess .sourceAgg (some raw) = .ok (d1, n1, st1) →
      env.evalProcess .sourceQuery (some raw) = .ok (d2, n2, st2) →
      env.evalProcess .row (some raw) = .error msg →
      (wrapper p env).outcome = .error (.miscException (.evalError .row msg)) ∧
      ∃ pre, (wrapper p env).state.trace = pre ++ [.invoke .row (some raw)]) ∧
    (∀ (p : Params) (env : Env) (raw rd : DF) (msg : String) (d1 d2 : Option DF)
        (n1 n2 ec : Nat) (st1 st2 st3 : Status),
      env.funcResult = .dataFrame raw → p.writeToTempTable = false →
      p.targetTableView ≠ "" → (p.notifyOnErrorDropBreach = true → raw.cnt ≠ 0) →
      (p.rowDq && p.aggDq && p.targetAggDq) = true →
      env.evalProcess .sourceAgg (some raw) = .ok (d1, n1, st1) →
      env.evalProcess .sourceQuery (some raw) = .ok (d2, n2, st2) →
      env.evalProcess .row (some raw) = .ok (some rd, ec, st3) →
      env.evalProcess .finalAgg (some rd) = .error msg →
      (wrapper p env).outcome = .error (.miscException (.evalError .finalAgg msg)) ∧
      ∃ pre, (wrapper p env).state.trace = pre ++ [.invoke .finalAgg (some rd)]) ∧
    (∀ (p : Params) (env : Env) (raw rd : DF) (msg : String) (d1 d2 d4 : Option DF)
        (n1 n2 ec n4 : Nat) (st1 st2 st3 st4 : Status),
      env.funcResult = .dataFrame raw → p.writeToTempTable = false →
      p.targetTableView ≠ "" → (p.notifyOnErrorDropBreach = true → raw.cnt ≠ 0) →
      (p.rowDq && p.queryDq && p.targetQueryDq) = true →
      env.evalProcess .sourceAgg (some raw) = .ok (d1, n1, st1) →
      env.evalProcess .sourceQuery (some raw) = .ok (d2, n2, st2) →
      env.evalProcess .row (some raw) = .ok (some rd, ec, st3) →
      env.evalProcess .finalAgg (some rd) = .ok (d4, n4, st4) →
      env.evalProcess .finalQuery (some rd) = .error msg →
      (wrapper p env).outcome = .error (.miscException (.evalError .finalQuery msg)) ∧
      ∃ pre, (wrapper p env).state.trace = pre ++ [.invoke .finalQuery (some rd)]) := by
  refine ⟨?_, ?_, ?_, ?_, ?_⟩
  · intro p env raw msg hf htmp hcond he
    obtain ⟨s', hw, -, -, hpre⟩ := wrapper_evalError_sourceAgg p env raw msg hf htmp hcond he
    rw [hw]
    exact ⟨rfl, hpre⟩
  · intro p env raw msg d1 n1 st1 hf htmp hcond h1 he
    obtain ⟨s', hw, -, -, hpre⟩ :=
      wrapper_evalError_sourceQuery p env raw msg d1 n1 st1 hf htmp hcond h1 he
    rw [hw]
    exact ⟨rfl, hpre⟩
  · intro p env raw msg d1 d2 n1 n2 st1 st2 hf htmp hcond h1 h2 he
    obtain ⟨s', hw, -, -, hpre⟩ :=
      wrapper_evalError_row p env raw msg d1 d2 n1 n2 st1 st2 hf htmp hcond h1 h2 he
    rw [hw]
    exact ⟨rfl, hpre⟩
  · intro p env raw rd msg d1 d2 n1 n2 ec st1 st2 st3 hf htmp hview hbr hcond h1 h2 h3 he
    obtain ⟨s', hw, -, -, hpre⟩ :=
      wrapper_evalError_finalAgg p env raw rd msg d1 d2 n1 n2 ec st1 st2 st3
        hf htmp hview hbr hcond h1 h2 h3 he
    rw [hw]
    exact ⟨rfl, hpre⟩
  · intro p env raw rd msg d1 d2 d4 n1 n2 ec n4 st1 st2 st3 st4
      hf htmp hview hbr hcond h1 h2 h3 h4 he
    obtain ⟨s', hw, -, -, hpre⟩ :=
      wrapper_evalError_finalQuery p env raw rd msg d1 d2 d4 n1 n2 ec n4 st1 st2 st3 st4
        hf htmp hview hbr hcond h1 h2 h3 h4 he
    rw [hw]
    exact ⟨rfl, hpre⟩

/-- Witness for C8 at concrete inputs: the row evaluation raises `"boom"`; the
run fails with the wrapped processing exception and the trace ends at the row
invocation. -/
theorem c8_witness :
    (wrapper exParams exEnvRowErr).outcome =
      .error (.miscException (.evalError .row "boom")) ∧
    ∃ pre, (wrapper exParams exEnvRowErr).state.trace =
      pre ++ [.invoke .row (some ⟨10⟩)] :=
  c8_stage_errors_elevate_to_run_level.2.2.1 exParams exEnvRowErr ⟨10⟩ "boom"
    (some ⟨10⟩) (some ⟨10⟩) 0 0 .passed .passed rfl rfl rfl rfl rfl rfl

/-- C3: for every stage that runs, the orchestrator first sets the stage
status to the pessimistic `Failed` and records a start timestamp, then
invokes the stage evaluation, then overwrites the stage status with the
evaluator's returned status and records an end timestamp (first conjunct:
the per-stage event record of an error-free run); consequently a stage whose
evaluation never completes is left with status `Failed` and no end timestamp
(remaining conjuncts, one per stage). -/
theorem c3_pessimistic_status_bracketing :
    (∀ (p : Params) (env : Env) (raw rd : DF) (d1 d2 d4 d5 : Option DF)
        (n1 n2 ec n4 n5 : Nat) (st1 st2 st3 st4 st5 : Status),
      env.funcResult = .dataFrame raw → p.writeToTempTable = false →
      p.targetTableView ≠ "" → (p.notifyOnErrorDropBreach = true → raw.cnt ≠ 0) →
      env.evalProcess .sourceAgg (some raw) = .ok (d1, n1, st1) →
      env.evalProcess .sourceQuery (some raw) = .ok (d2, n2, st2) →
      env.evalProcess .row (some raw) = .ok (some rd, ec, st3) →
      env.evalProcess .finalAgg (some rd) = .ok (d4, n4, st4) →
      env.evalProcess .finalQuery (some rd) = .ok (d5, n5, st5) →
      ∀ stg, stageRunCond p stg = true →
        stageEvents stg (wrapper p env).state.trace =
          [.setStatus stg .failed, .setStartTime stg,
           .invoke stg (match stg with
             | .finalAgg => some rd
             | .finalQuery => some rd
             | _ => some raw),
           .setStatus stg (match stg with
             | .sourceAgg => st1
             | .sourceQuery => st2
             | .row => st3
             | .finalAgg => st4
             | .finalQuery => st5),
           .setEndTime stg]) ∧
    (∀ (p : Params) (env : Env) (raw : DF) (msg : String),
      env.funcResult = .dataFrame raw → p.writeToTempTable = false →
      (p.aggDq && p.sourceAggDq) = true →
      env.evalProcess .sourceAgg (some raw) = .error msg →
      statusOf .sourceAgg (wrapper p env).state.ctx = .failed ∧
      endTimeOf .sourceAgg (wrapper p env).state.ctx = none) ∧
    (∀ (p : Params) (env : Env) (raw : DF) (msg : String) (d1 : Option DF)
        (n1 : Nat) (st1 : Status),
      env.funcResult = .dataFrame raw → p.writeToTempTable = false →
      (p.queryDq && p.sourceQueryDq) = true →
      env.evalProcess .sourceAgg (some raw) = .ok (d1, n1, st1) →
      env.evalProcess .sourceQuery (some raw) = .error msg →
      statusOf .sourceQuery (wrapper p env).state.ctx = .failed ∧
      endTimeOf .sourceQuery (wrapper p env).state.ctx = none) ∧
    (∀ (p : Params) (env : Env) (raw : DF) (msg : String) (d1 d2 : Option DF)
        (n1 n2 : Nat) (st1 st2 : Status),
      env.funcResult = .dataFrame raw → p.writeToTempTable = false →
      p.rowDq = true →
      env.evalProcess .sourceAgg (some raw) = .ok (d1, n1, st1) →
      env.evalProcess .sourceQuery (some raw) = .ok (d2, n2, st2) →
      env.evalProcess .row (some raw) = .error msg →
      statusOf .row (wrapper p env).state.ctx = .failed ∧
      endTimeOf .row (wrapper p env).state.ctx = none) ∧
    (∀ (p : Params) (env : Env) (raw rd : DF) (msg : String) (d1 d2 : Option DF)
        (n1 n2 ec : Nat) (st1 st2 st3 : Status),
      env.funcResult = .dataFrame raw → p.writeToTempTable = false →
      p.targetTableView ≠ "" → (p.notifyOnErrorDropBreach = true → raw.cnt ≠ 0) →
      (p.rowDq && p.aggDq && p.targetAggDq) = true →
      env.evalProcess .sourceAgg (some raw) = .ok (d1, n1, st1) →
      env.evalProcess .sourceQuery (some raw) = .ok (d2, n2, st2) →
      env.evalProcess .row (some raw) = .ok (some rd, ec, st3) →
      env.evalProcess .finalAgg (some rd) = .error msg →
      statusOf .finalAgg (wrapper p env).state.ctx = .failed ∧
      endTimeOf .finalAgg (wrapper p env).state.ctx = none) ∧
    (∀ (p : Params) (env : Env) (raw rd : DF) (msg : String) (d1 d2 d4 : Option DF)
        (n1 n2 ec n4 : Nat) (st1 st2 st3 st4 : Status),
      env.funcResult = .dataFrame raw → p.writeToTempTable = false →
      p.targetTableView ≠ "" → (p.notifyOnErrorDropBreach = true → raw.cnt ≠ 0) →
      (p.rowDq && p.queryDq && p.targetQueryDq) = true →
      env.evalProcess .sourceAgg (some raw) = .ok (d1, n1, st1) →
      env.evalProcess .sourceQuery (some raw) = .ok (d2, n2, st2) →
      env.evalProcess .row (some raw) = .ok (some rd, ec, st3) →
      env.evalProcess .finalAgg (some rd) = .ok (d4, n4, st4) →
      env.evalProcess .finalQuery (some rd) = .error msg →
      statusOf .finalQuery (wrapper p env).state.ctx = .failed ∧
      endTimeOf .finalQuery (wrapper p env).state.ctx = none) := by
  refine ⟨?_, ?_, ?_, ?_, ?_, ?_⟩
  · intro p env raw rd d1 d2 d4 d5 n1 n2 ec n4 n5 st1 st2 st3 st4 st5
      hf htmp hview hbr h1 h2 h3 h4 h5 stg hcond
    obtain ⟨sA, hA, hAinv, hAev, hAdf, hAin, hAet, hAn⟩ :=
      runSourceAggStage_total p env raw (initContext p raw.cnt initSt) d1 n1 st1 h1
    obtain ⟨sB, hB, hBinv, hBev, hBdf, hBin, hBet, hBn⟩ :=
      runSourceQueryStage_total p env raw sA d2 n2 st2 h2
    obtain ⟨sC, hC, hCinv, hCev, hCdf, hCin, hCet⟩ :=
      runRowStage_total p env raw sB rd ec st3 hview
        (by
          intro hn
          rw [hBin, hAin]
          simpa [initContext, initSt] using hbr hn) h3
    obtain ⟨sD, hD, hDinv, hDev, hDdf, hDin, hDet, hDn⟩ :=
      runFinalAggStage_total p env sC rd d4 n4 st4
        (by intro hrow; rw [hCdf]; simp [hrow]) h4
    obtain ⟨sE, hE, hEinv, hEev, hEdf, hEin, hEet, hEn⟩ :=
      runFinalQueryStage_total p env sD rd d5 n5 st5
        (by intro hrow; rw [hDdf, hCdf]; simp [hrow]) hview h5
    obtain ⟨sF, hF, hFinv, hFev, hFdf, hFctx, hFn⟩ := runWriteStage_total p sE
    have hbody : wrapperBody p env initSt = (sF, .ok sF.rowDqDf) := by
      simp only [wrapperBody, runStages, hf, pyCount, htmp, Bool.false_eq_true, if_false]
      rw [hA, stepSeq_none, hB, stepSeq_none, hC, stepSeq_none, hD, stepSeq_none,
        hE, stepSeq_none, hF]
    have hw : (wrapper p env).state = sF := by
      simp [wrapper, hbody]
    rw [hw, hFev stg, hEev stg, hDev stg, hCev stg, hBev stg, hAev stg]
    have hs0 : stageEvents stg (initContext p raw.cnt initSt).trace = [] := by
      simp [initContext, initSt, stageEvents]
    rw [hs0]
    cases stg with
    | sourceAgg =>
      simp only [stageRunCond] at hcond
      simp [hcond]
    | sourceQuery =>
      simp only [stageRunCond] at hcond
      simp [hcond]
    | row =>
      simp only [stageRunCond] at hcond
      simp [hcond]
    | finalAgg =>
      simp only [stageRunCond] at hcond
      simp [hcond]
    | finalQuery =>
      simp only [stageRunCond] at hcond
      simp [hcond]
  · intro p env raw msg hf htmp hcond he
    obtain ⟨s', hw, hst, het, -⟩ := wrapper_evalError_sourceAgg p env raw msg hf htmp hcond he
    rw [hw]
    exact ⟨hst, het⟩
  · intro p env raw msg d1 n1 st1 hf htmp hcond h1 he
    obtain ⟨s', hw, hst, het, -⟩ :=
      wrapper_evalError_sourceQuery p env raw msg d1 n1 st1 hf htmp hcond h1 he
    rw [hw]
    exact ⟨hst, het⟩
  · intro p env raw msg d1 d2 n1 n2 st1 st2 hf htmp hcond h1 h2 he
    obtain ⟨s', hw, hst, het, -⟩ :=
      wrapper_evalError_row p env raw msg d1 d2 n1 n2 st1 st2 hf htmp hcond h1 h2 he
    rw [hw]
    exact ⟨hst, het⟩
  · intro p env raw rd msg d1 d2 n1 n2 ec st1 st2 st3 hf htmp hview hbr hcond h1 h2 h3 he
    obtain ⟨s', hw, hst, het, -⟩ :=
      wrapper_evalError_finalAgg p env raw rd msg d1 d2 n1 n2 ec st1 st2 st3
        hf htmp hview hbr hcond h1 h2 h3 he
    rw [hw]
    exact ⟨hst, het⟩
  · intro p env raw rd msg d1 d2 d4 n1 n2 ec n4 st1 st2 st3 st4
      hf htmp hview hbr hcond h1 h2 h3 h4 he
    obtain ⟨s', hw, hst, het, -⟩ :=
      wrapper_evalError_finalQuery p env raw rd msg d1 d2 d4 n1 n2 ec n4 st1 st2 st3 st4
        hf htmp hview hbr hcond h1 h2 h3 h4 he
    rw [hw]
    exact ⟨hst, het⟩

/-- Witness for C3 at concrete inputs: the completed row stage of a concrete
error-free run shows the exact `Failed`–start–invoke–status–end bracket, and
a run whose row evaluation raises leaves the row status `Failed` with no end
time. -/
theorem c3_witness :
    stageEvents .row (wrapper exParams exEnv).state.trace =
      [.setStatus .row .failed, .setStartTime .row, .invoke .row (some ⟨10⟩),
       .setStatus .row .passed, .setEndTime .row] ∧
    statusOf .row (wrapper exParams exEnvRowErr).state.ctx = .failed ∧
    endTimeOf .row (wrapper exParams exEnvRowErr).state.ctx = none := by
  refine ⟨?_, ?_⟩
  · have h := c3_pessimistic_status_bracketing.1 exParams exEnv ⟨10⟩ ⟨8⟩
      (some ⟨10⟩) (some ⟨10⟩) (some ⟨8⟩) (some ⟨8⟩) 0 0 2 0 0
      .passed .passed .passed .passed .passed
      rfl rfl (by simp [exParams]) (by simp [exParams])
      rfl rfl rfl rfl rfl .row rfl
    simpa using h
  · exact c3_pessimistic_status_bracketing.2.2.2.1 exParams exEnvRowErr ⟨10⟩ "boom"
      (some ⟨10⟩) (some ⟨10⟩) 0 0 .passed .passed rfl rfl rfl rfl rfl rfl

/-- C10: the effective notification configuration is the user-supplied
`spark_conf` merged over fixed defaults — notifications on start, on
completion, and on error-drop-threshold-breach default to `False`,
notification on fail defaults to `True`, the run-level threshold defaults to
`100` — and a supplied value that is not an instance of the expected type is
replaced by `False` (flags) or `100` (threshold) rather than raising.  In
Python `bool` is a subclass of `int`, so a supplied `bool` counts as an `int`
instance for the threshold. -/
theorem c10_notification_config_merge (conf : SparkConf) :
    notificationOnStart conf =
      (match conf.onStart with
       | some (.boolV b) => b
       | some _ => false
       | none => false) ∧
    notificationOnCompletion conf =
      (match conf.onCompletion with
       | some (.boolV b) => b
       | some _ => false
       | none => false) ∧
    notificationOnFail conf =
      (match conf.onFail with
       | some (.boolV b) => b
       | some _ => false
       | none => true) ∧
    notificationOnErrorDropBreach conf =
      (match conf.onErrorDropBreach with
       | some (.boolV b) => b
       | some _ => false
       | none => false) ∧
    errorDropThresholdOf conf =
      (match conf.errorDropThresholdValue with
       | some (.boolV b) => if b then 1 else 0
       | some (.intV n) => n
       | some (.strV _) => 100
       | none => 100) := by
  refine ⟨?_, ?_, ?_, ?_, ?_⟩
  · rcases h : conf.onStart with - | v
    · simp [notificationOnStart, mergedValue, h, isInstanceBool, confBool]
    · cases v <;> simp [notificationOnStart, mergedValue, h, isInstanceBool, confBool]
  · rcases h : conf.onCompletion with - | v
    · simp [notificationOnCompletion, mergedValue, h, isInstanceBool, confBool]
    · cases v <;>
        simp [notificationOnCompletion, mergedValue, h, isInstanceBool, confBool]
  · rcases h : conf.onFail with - | v
    · simp [notificationOnFail, mergedValue, h, isInstanceBool, confBool]
    · cases v <;> simp [notificationOnFail, mergedValue, h, isInstanceBool, confBool]
  · rcases h : conf.onErrorDropBreach with - | v
    · simp [notificationOnErrorDropBreach, mergedValue, h, isInstanceBool, confBool]
    · cases v <;>
        simp [notificationOnErrorDropBreach, mergedValue, h, isInstanceBool, confBool]
  · rcases h : conf.errorDropThresholdValue with - | v
    · simp [errorDropThresholdOf, mergedValue, h, isInstanceInt, confInt]
    · cases v <;> simp [errorDropThresholdOf, mergedValue, h, isInstanceInt, confInt]

/-- With a non-zero input count the per-rule enrichment never raises, and it
contains the computed entry for every alert-enabled rule whose failed-row
count is present in the summary map — regardless of the rule's own
threshold. -/
theorem thresholdEntriesFor_ok (n : Nat) (m : List (String × Nat))
    (rules : List RowDqRule) (hn : n ≠ 0) :
    ∃ tl, thresholdEntriesFor n m rules = .ok tl ∧
      ∀ r c, r ∈ rules → r.enableErrorDropAlert = true →
        lookupFailedCount m r.rule = some c → mkThresholdEntry r c n ∈ tl := by
  induction rules with
  | nil => exact ⟨[], rfl, by simp⟩
  | cons r0 rest ih =>
    obtain ⟨tl, htl, hmem⟩ := ih
    by_cases ha : r0.enableErrorDropAlert = true
    · cases hl : lookupFailedCount m r0.rule with
      | some c0 =>
        refine ⟨mkThresholdEntry r0 c0 n :: tl, ?_, ?_⟩
        · simp [thresholdEntriesFor, ha, hl, hn, htl]
        · intro r c hr hra hrl
          rcases List.mem_cons.mp hr with hr0 | hrest
          · subst hr0
            rw [hl] at hrl
            obtain rfl : c0 = c := by injection hrl
            exact List.mem_cons_self _ _
          · exact List.mem_cons_of_mem _ (hmem r c hrest hra hrl)
      | none =>
        refine ⟨tl, ?_, ?_⟩
        · simp [thresholdEntriesFor, ha, hl, htl]
        · intro r c hr hra hrl
          rcases List.mem_cons.mp hr with hr0 | hrest
          · subst hr0
            rw [hl] at hrl
            cases hrl
          · exact hmem r c hrest hra hrl
    · refine ⟨tl, ?_, ?_⟩
      · simp [thresholdEntriesFor, ha, htl]
      · intro r c hr hra hrl
        rcases List.mem_cons.mp hr with hr0 | hrest
        · subst hr0
          exact absurd hra ha
        · exact hmem r c hrest hra hrl

/-- With input count zero the enrichment is a hard error as soon as one
alert-enabled rule has a failed-row count to divide. -/
theorem thresholdEntriesFor_zero_err (m : List (String × Nat))
    (rules : List RowDqRule) (r : RowDqRule) (c : Nat)
    (hr : r ∈ rules) (ha : r.enableErrorDropAlert = true)
    (hl : lookupFailedCount m r.rule = some c) :
    ∃ msg, thresholdEntriesFor 0 m rules = .error msg := by
  induction rules with
  | nil => cases hr
  | cons r0 rest ih =>
    by_cases ha0 : r0.enableErrorDropAlert = true
    · cases hl0 : lookupFailedCount m r0.rule with
      | some c0 =>
        exact ⟨"division by zero", by simp [thresholdEntriesFor, ha0, hl0]⟩
      | none =>
        rcases List.mem_cons.mp hr with hr0 | hrest
        · subst hr0
          rw [hl0] at hl
          cases hl
        · obtain ⟨msg, hmsg⟩ := ih hrest
          exact ⟨msg, by simp [thresholdEntriesFor, ha0, hl0, hmsg]⟩
    · rcases List.mem_cons.mp hr with hr0 | hrest
      · subst hr0
        exact absurd ha ha0
      · obtain ⟨msg, hmsg⟩ := ih hrest
        exact ⟨msg, by simp [thresholdEntriesFor, ha0, hmsg]⟩

/-- C7: for every row rule with `enable_error_drop_alert = true` whose failed
count is present and with a positive input count, `rules_exceeds_threshold`
contains the rule's entry with `error_drop_percentage = failed_count /
input_count * 100` rendered to one decimal place, regardless of the rule's own
`error_drop_threshold` (first conjunct); with `input_count = 0` the
computation raises a hard error instead of producing a value (second
conjunct); and an absent rules input is a hard error whenever a summary is
present (third conjunct). -/
theorem c7_rules_exceeds_threshold_enrichment :
    (∀ (inputCount : Nat) (summ : List SummarisedEntry) (m : List (String × Nat))
        (rules : List RowDqRule) (r : RowDqRule) (c : Nat),
      inputCount ≠ 0 →
      buildFailedRowCountMap summ = .ok m →
      r ∈ rules → r.enableErrorDropAlert = true →
      lookupFailedCount m r.rule = some c →
      ∃ tl, generate_rules_exceeds_threshold inputCount (some summ) (some rules) =
          .ok (some tl) ∧
        ({ ruleName := r.rule
           actionIfFailed := r.actionIfFailed
           description := r.description
           ruleType := r.ruleType
           errorDropThresholdStr := r.errorDropThresholdStr
           errorDropPercentage :=
             round1 ((c : ℚ) / (inputCount : ℚ) * 100) } : ThresholdEntry) ∈ tl) ∧
    (∀ (summ : List SummarisedEntry) (m : List (String × Nat))
        (rules : List RowDqRule) (r : RowDqRule) (c : Nat),
      buildFailedRowCountMap summ = .ok m →
      r ∈ rules → r.enableErrorDropAlert = true →
      lookupFailedCount m r.rule = some c →
      ∃ msg, generate_rules_exceeds_threshold 0 (some summ) (some rules) =
        .error msg) ∧
    (∀ (n : Nat) (summ : List SummarisedEntry),
      ∃ msg, generate_rules_exceeds_threshold n (some summ) none = .error msg) := by
  refine ⟨?_, ?_, ?_⟩
  · intro inputCount summ m rules r c hn hbuild hr ha hl
    obtain ⟨tl, htl, hmem⟩ := thresholdEntriesFor_ok inputCount m rules hn
    have hin : mkThresholdEntry r c inputCount ∈ tl := hmem r c hr ha hl
    refine ⟨tl, ?_, hin⟩
    have hne : tl.isEmpty = false := by
      cases tl with
      | nil => cases hin
      | cons a l => rfl
    simp [generate_rules_exceeds_threshold, hbuild, htl, hne]
  · intro summ m rules r c hbuild hr ha hl
    obtain ⟨msg, hmsg⟩ := thresholdEntriesFor_zero_err m rules r c hr ha hl
    exact ⟨msg, by simp [generate_rules_exceeds_threshold, hbuild, hmsg]⟩
  · intro n summ
    cases hbuild : buildFailedRowCountMap summ with
    | error msg => exact ⟨msg, by simp [generate_rules_exceeds_threshold, hbuild]⟩
    | ok m =>
      exact ⟨"row dq rules are not available",
        by simp [generate_rules_exceeds_threshold, hbuild]⟩

/-- Witness for C7 at the concrete inputs of the repository's writer tests:
input count 100, `rule1` (alert enabled) failed on 10 rows, expected
percentage `10.0`; and the same summary with input count 0 or without rules
raises. -/
theorem c7_witness :
    (∃ tl, generate_rules_exceeds_threshold 100 (some exSummarised) (some [exRowRule]) =
        .ok (some tl) ∧
      ({ ruleName := "rule1"
         actionIfFailed := "drop"
         description := "description1"
         ruleType := "row_dq"
         errorDropThresholdStr := "10"
         errorDropPercentage := round1 ((10 : ℚ) / (100 : ℚ) * 100) } :
        ThresholdEntry) ∈ tl) ∧
    (∃ msg, generate_rules_exceeds_threshold 0 (some exSummarised) (some [exRowRule]) =
      .error msg) ∧
    (∃ msg, generate_rules_exceeds_threshold 100 (some exSummarised) none =
      .error msg) := by
  obtain ⟨hA, hB, hC⟩ := c7_rules_exceeds_threshold_enrichment
  refine ⟨?_, ?_, hC 100 exSummarised⟩
  · have h := hA 100 exSummarised [("rule1", 10)] [exRowRule] exRowRule 10
      (by decide) rfl (by simp) rfl rfl
    simpa [exRowRule] using h
  · exact hB exSummarised [("rule1", 10)] [exRowRule] exRowRule 10 rfl (by simp) rfl rfl
